/-
Verification of the ibc-core (TAO) crate against its design document.

The repository file `crates/ibc-core/src/lib.rs` is a pure re-export
aggregator; the behaviour of the four TAO subsystems (client, connection,
channel, packet lifecycle) lives in the `ibc-core-*` crates it re-exports
and is modelled here from the design document's words.  The aggregator
file itself is embedded syntactically at the end of the definitions.
-/
import Mathlib

namespace IBC

/-! ## Association-list store

The host state store is modelled as association lists with first-match
lookup; `setA` replaces, `delA` removes every binding of a key. -/

/-- First-match lookup in an association list. -/
def getA {K V : Type} [DecidableEq K] : List (K × V) → K → Option V
  | [], _ => none
  | (a, b) :: rest, k => if a = k then some b else getA rest k

/-- Bind `k` to `v`, removing any previous binding of `k`. -/
def setA {K V : Type} [DecidableEq K] (l : List (K × V)) (k : K) (v : V) : List (K × V) :=
  (k, v) :: l.filter (fun kv => !(decide (kv.1 = k)))

/-- Remove every binding of `k`. -/
def delA {K V : Type} [DecidableEq K] (l : List (K × V)) (k : K) : List (K × V) :=
  l.filter (fun kv => !(decide (kv.1 = k)))

/-- Membership of a key in a plain list (used for packet receipts). -/
def memA {K : Type} [DecidableEq K] : List K → K → Bool
  | [], _ => false
  | a :: rest, k => if a = k then true else memA rest k

/-! ## Identifiers and heights -/

/-- Chain-assigned opaque string identifier of a light client. -/
abbrev ClientId := String

/-- Chain-assigned opaque string identifier of a connection end. -/
abbrev ConnectionId := String

/-- Chain-assigned opaque string identifier of a channel end. -/
abbrev ChannelId := String

/-- Chain-assigned opaque string identifier of a port. -/
abbrev PortId := String

/-- Packet sequence number, strictly increasing per channel and direction. -/
abbrev Sequence := Nat

/-- `Height` = (revision number, revision height), ordered lexicographically. -/
structure Height where
  revisionNumber : Nat
  revisionHeight : Nat
deriving DecidableEq

/-- Lexicographic order on heights, as a boolean test. -/
def hle (a b : Height) : Bool :=
  decide (a.revisionNumber < b.revisionNumber ∨
    (a.revisionNumber = b.revisionNumber ∧ a.revisionHeight ≤ b.revisionHeight))

/-- Strict lexicographic order on heights. -/
def hlt (a b : Height) : Bool :=
  hle a b && !(decide (a = b))

/-- The larger of two heights. -/
def hmax (a b : Height) : Height :=
  if hle a b then b else a

/-! ## Client subsystem data

Modelled from the spec: `ClientState` (latest tracked height, `Frozen`
flag) together with the per-height `ConsensusState` history of one light
client; the trust parameters play no role in any claim and are omitted. -/

/-- Committed state root and timestamp of the counterparty at one height. -/
structure ConsensusState where
  root : Nat
  timestamp : Nat
deriving DecidableEq

/-- One light-client record: latest tracked height, permanent freeze flag,
and the consensus-state history keyed by height. -/
structure ClientRecord where
  latestHeight : Height
  frozen : Bool
  consensusStates : List (Height × ConsensusState)
deriving DecidableEq

/-- A counterparty header as seen after the pluggable per-consensus
verification: its height, the consensus state it carries, and the verdict
of the external `verify_header` plugin (modelled as a boolean field). -/
structure Header where
  height : Height
  consensusState : ConsensusState
  valid : Bool
deriving DecidableEq

/-- Misbehaviour evidence; `valid` is the verdict of the external
`check_misbehaviour` plugin on whether it proves two conflicting headers. -/
structure Misbehaviour where
  valid : Bool
deriving DecidableEq

/-! ## Connection and channel data -/

/-- Connection handshake state, in its enumerated forward order. -/
inductive ConnState where
  | Uninit
  | Init
  | TryOpen
  | Open
deriving DecidableEq

/-- Position of a connection state in the forward order. -/
def ConnState.rank : ConnState → Nat
  | .Uninit => 0
  | .Init => 1
  | .TryOpen => 2
  | .Open => 3

/-- One connection end: handshake state, the client it is bound to, the
counterparty identifiers, the candidate version set (a singleton once
negotiation finishes) and the delay period. -/
structure ConnectionEnd where
  state : ConnState
  clientId : ClientId
  counterpartyClientId : ClientId
  counterpartyConnectionId : Option ConnectionId
  versions : List Nat
  delayPeriod : Nat
deriving DecidableEq

/-- Channel handshake state; `Closed` is terminal and reachable from `Open`
only. -/
inductive ChanState where
  | Uninit
  | Init
  | TryOpen
  | Open
  | Closed
deriving DecidableEq

/-- Position of a channel state in the forward order. -/
def ChanState.rank : ChanState → Nat
  | .Uninit => 0
  | .Init => 1
  | .TryOpen => 2
  | .Open => 3
  | .Closed => 4

/-- Delivery discipline of a channel. -/
inductive ChanOrdering where
  | Ordered
  | Unordered
deriving DecidableEq

/-- One channel end: handshake state, ordering, the connection it rides on,
its port, the counterparty identifiers and the negotiated version. -/
structure ChannelEnd where
  state : ChanState
  ordering : ChanOrdering
  connectionId : ConnectionId
  portId : PortId
  counterpartyPortId : PortId
  counterpartyChannelId : Option ChannelId
  version : Nat
deriving DecidableEq

/-! ## Packets -/

/-- A packet: sequence, source and destination ends, opaque data, and the
two timeout conditions (a zero height or zero timestamp means that
condition is unset). -/
structure Packet where
  sequence : Sequence
  sourcePort : PortId
  sourceChannel : ChannelId
  destPort : PortId
  destChannel : ChannelId
  data : Nat
  timeoutHeight : Height
  timeoutTimestamp : Nat
deriving DecidableEq

/-- The commitment recorded at send time: `Hash(data, timeout_height,
timeout_timestamp)`, with the hash idealised as the injective tuple. -/
structure PacketCommitment where
  data : Nat
  timeoutHeight : Height
  timeoutTimestamp : Nat
deriving DecidableEq

/-- The commitment a packet's send records. -/
def commitmentOf (p : Packet) : PacketCommitment :=
  ⟨p.data, p.timeoutHeight, p.timeoutTimestamp⟩

/-- Whether the packet's timeout has elapsed relative to a height and a
timestamp: either set condition triggers ("either condition triggers
timeout eligibility"). -/
def timeoutElapsedAt (p : Packet) (h : Height) (t : Nat) : Bool :=
  (!(decide (p.timeoutHeight = ⟨0, 0⟩)) && hle p.timeoutHeight h) ||
  (!(decide (p.timeoutTimestamp = 0)) && decide (p.timeoutTimestamp ≤ t))

/-! ## Errors

The flat union of the per-subsystem error taxonomies of the design
document (`ClientError`, `ConnectionError`, `ChannelError`,
`PacketError`); record-missing lookups get their own kinds. -/

/-- Error kinds returned by the core's operations. -/
inductive Err where
  | ClientFrozen
  | HeaderVerificationFailed
  | InvalidMisbehaviourEvidence
  | ConsensusStateNotFound
  | ClientNotFound
  | ConnectionNotFound
  | ConnectionInvalidState
  | NoCommonVersion
  | ChannelNotFound
  | ChannelInvalidState
  | ChannelNotOpen
  | ConnectionNotOpen
  | CapabilityNotOwned
  | ModuleRejectedVersion
  | TimeoutElapsed
  | TimeoutNotElapsed
  | TimeoutAlreadyElapsed
  | SequenceMismatch
  | CommitmentNotFound
  | CommitmentMismatch
  | ProofVerificationFailed
  | DuplicateReceipt
  | UnexpectedReceiptState
deriving DecidableEq

/-! ## Host state -/

/-- The entire host-held store the core reads and writes: one record per
client / connection / channel, the per-channel send and receive counters
(absent means the initial sequence 1), packet commitments keyed by
(channel, sequence), unordered-channel receipts, acknowledgement
commitments, the capability registry mapping a port to its owning module,
and the local chain's current height and timestamp. -/
structure State where
  clients : List (ClientId × ClientRecord)
  connections : List (ConnectionId × ConnectionEnd)
  channels : List (ChannelId × ChannelEnd)
  nextSendSeq : List (ChannelId × Sequence)
  nextRecvSeq : List (ChannelId × Sequence)
  commitments : List ((ChannelId × Sequence) × PacketCommitment)
  receipts : List (ChannelId × Sequence)
  acks : List ((ChannelId × Sequence) × Nat)
  caps : List (PortId × Nat)
  hostHeight : Height
  hostTimestamp : Nat
deriving DecidableEq

/-- Next send sequence of a channel (sequences start at 1). -/
def nextSendOf (st : State) (c : ChannelId) : Sequence :=
  (getA st.nextSendSeq c).getD 1

/-- Next receive sequence of a channel (sequences start at 1). -/
def nextRecvOf (st : State) (c : ChannelId) : Sequence :=
  (getA st.nextRecvSeq c).getD 1

/-- Outcome of one core invocation: `some e` is failure, `none` success;
`state` is the store after the invocation. -/
structure StepResult where
  result : Option Err
  state : State
deriving DecidableEq

/-! ## Proof verification -/

/-- An opening proof as the core sees it: the height it is taken at, the
root it opens against, and the verdict of the external
`verify_membership` / `verify_non_membership` check of the expected path
and value against that root (modelled as a boolean field). -/
structure MProof where
  height : Height
  root : Nat
  ok : Bool
deriving DecidableEq

/-- Modelled from the spec: the proof gate every proof-carrying operation
runs (the missing `ibc-core-client` verification path).  The referenced
client must exist and not be frozen; the proof height must not exceed the
client's latest tracked height; the `ConsensusState` stored at exactly
the proof height supplies the root the opening is checked against.
Returns that consensus state on success. -/
def verifyProofCS (st : State) (cid : ClientId) (pr : MProof) :
    Except Err ConsensusState :=
  match getA st.clients cid with
  | none => .error .ClientNotFound
  | some cl =>
    if cl.frozen then .error .ClientFrozen
    else if !(hle pr.height cl.latestHeight) then .error .ProofVerificationFailed
    else
      match getA cl.consensusStates pr.height with
      | none => .error .ConsensusStateNotFound
      | some cs =>
        if pr.ok && pr.root = cs.root then .ok cs
        else .error .ProofVerificationFailed

/-! ## Client operations -/

/-- Modelled from the spec: `UpdateClient` of the missing
`ibc-core-client` crate.  Fails `ClientFrozen` on a frozen client and
`HeaderVerificationFailed` when the pluggable verification rejects the
header; a no-op when the exact height/root pair is already tracked; a
conflicting root at a tracked height is rejected.  Otherwise inserts the
header's consensus state at its height and advances the latest tracked
height (which never decreases). -/
def updateClient (st : State) (cid : ClientId) (h : Header) : StepResult :=
  match getA st.clients cid with
  | none => ⟨some .ClientNotFound, st⟩
  | some cl =>
    if cl.frozen then ⟨some .ClientFrozen, st⟩
    else if !h.valid then ⟨some .HeaderVerificationFailed, st⟩
    else
      match getA cl.consensusStates h.height with
      | some cs =>
        if cs.root = h.consensusState.root then ⟨none, st⟩
        else ⟨some .HeaderVerificationFailed, st⟩
      | none =>
        let cl' : ClientRecord :=
          { latestHeight := hmax cl.latestHeight h.height
            frozen := cl.frozen
            consensusStates := setA cl.consensusStates h.height h.consensusState }
        ⟨none, { st with clients := setA st.clients cid cl' }⟩

/-- Modelled from the spec: `SubmitMisbehaviour` of the missing
`ibc-core-client` crate.  On valid evidence of conflicting headers sets
`Frozen = true` permanently; fails `InvalidMisbehaviourEvidence`
otherwise, and `ClientFrozen` once the client is already frozen. -/
def submitMisbehaviour (st : State) (cid : ClientId) (ev : Misbehaviour) : StepResult :=
  match getA st.clients cid with
  | none => ⟨some .ClientNotFound, st⟩
  | some cl =>
    if cl.frozen then ⟨some .ClientFrozen, st⟩
    else if !ev.valid then ⟨some .InvalidMisbehaviourEvidence, st⟩
    else
      let cl' : ClientRecord := { cl with frozen := true }
      ⟨none, { st with clients := setA st.clients cid cl' }⟩

/-! ## Connection handshake

Modelled from the spec: the four-step handshake FSM of the missing
`ibc-core-connection` crate.  Every step validates that the referenced
client exists and is not frozen; the proof-carrying steps run the proof
gate `verifyProofCS`; no step ever moves a record backwards. -/

/-- Modelled from the spec: `ConnOpenInit` — propose a connection against
a client, creating the record in `Init`; no proof required; re-use of an
existing connection identifier is rejected. -/
def connOpenInit (st : State) (connId : ConnectionId) (cid cpCid : ClientId)
    (versions : List Nat) (delay : Nat) : StepResult :=
  match getA st.clients cid with
  | none => ⟨some .ClientNotFound, st⟩
  | some cl =>
    if cl.frozen then ⟨some .ClientFrozen, st⟩
    else
      match getA st.connections connId with
      | some _ => ⟨some .ConnectionInvalidState, st⟩
      | none =>
        let conns := setA st.connections connId ⟨.Init, cid, cpCid, none, versions, delay⟩
        ⟨none, { st with connections := conns }⟩

/-- Modelled from the spec: `ConnOpenTry` — create the record in
`TryOpen` (or advance an `Init` record of a crossing handshake), after
verifying the initiator's membership proof through the client gate. -/
def connOpenTry (st : State) (connId : ConnectionId) (cid cpCid : ClientId)
    (cpConnId : ConnectionId) (versions : List Nat) (delay : Nat)
    (pr : MProof) : StepResult :=
  match verifyProofCS st cid pr with
  | .error e => ⟨some e, st⟩
  | .ok _ =>
    match getA st.connections connId with
    | some conn =>
      if conn.state = .Init then
        let conn' := { conn with state := ConnState.TryOpen,
                                 counterpartyConnectionId := some cpConnId }
        ⟨none, { st with connections := setA st.connections connId conn' }⟩
      else ⟨some .ConnectionInvalidState, st⟩
    | none =>
      let conns := setA st.connections connId ⟨.TryOpen, cid, cpCid, some cpConnId, versions, delay⟩
      ⟨none, { st with connections := conns }⟩

/-- Modelled from the spec: `ConnOpenAck` — advance an `Init` record to
`Open` on proof that the counterparty reached `TryOpen`; the final
version is negotiated from the proposed set (`NoCommonVersion` when the
counterparty's choice is not among it). -/
def connOpenAck (st : State) (connId : ConnectionId) (cpConnId : ConnectionId)
    (cpVersion : Nat) (pr : MProof) : StepResult :=
  match getA st.connections connId with
  | none => ⟨some .ConnectionNotFound, st⟩
  | some conn =>
    if conn.state = .Init then
      match verifyProofCS st conn.clientId pr with
      | .error e => ⟨some e, st⟩
      | .ok _ =>
        if memA conn.versions cpVersion then
          let conn' := { conn with state := ConnState.Open,
                                   counterpartyConnectionId := some cpConnId,
                                   versions := [cpVersion] }
          ⟨none, { st with connections := setA st.connections connId conn' }⟩
        else ⟨some .NoCommonVersion, st⟩
    else ⟨some .ConnectionInvalidState, st⟩

/-- Modelled from the spec: `ConnOpenConfirm` — advance an `Init` or
`TryOpen` record to `Open` on proof that the initiator is `Open`. -/
def connOpenConfirm (st : State) (connId : ConnectionId) (pr : MProof) : StepResult :=
  match getA st.connections connId with
  | none => ⟨some .ConnectionNotFound, st⟩
  | some conn =>
    if conn.state = .Init ∨ conn.state = .TryOpen then
      match verifyProofCS st conn.clientId pr with
      | .error e => ⟨some e, st⟩
      | .ok _ =>
        let conn' := { conn with state := ConnState.Open }
        ⟨none, { st with connections := setA st.connections connId conn' }⟩
    else ⟨some .ConnectionInvalidState, st⟩

/-! ## Channel handshake

Modelled from the spec: the four-step handshake FSM (plus the two close
steps) of the missing `ibc-core-channel` crate.  Every step additionally
requires the underlying connection to be `Open`, the calling module to
own the capability over the claimed port, and — for the open steps — the
owning module's acceptance of the negotiated version. -/

/-- Modelled from the spec: the lower-layer gate every channel step runs —
the underlying connection must be `Open` and its client not frozen. -/
def chanGate (st : State) (connId : ConnectionId) : Except Err ConnectionEnd :=
  match getA st.connections connId with
  | none => .error .ConnectionNotOpen
  | some conn =>
    if !(decide (conn.state = .Open)) then .error .ConnectionNotOpen
    else
      match getA st.clients conn.clientId with
      | none => .error .ClientNotFound
      | some cl => if cl.frozen then .error .ClientFrozen else .ok conn

/-- Modelled from the spec: `ChanOpenInit` — create the channel record in
`Init`; no proof required. -/
def chanOpenInit (st : State) (chanId : ChannelId) (portId : PortId)
    (moduleId : Nat) (connId : ConnectionId) (ord : ChanOrdering)
    (version : Nat) (cpPortId : PortId) (moduleAccepts : Bool) : StepResult :=
  if !(decide (getA st.caps portId = some moduleId)) then ⟨some .CapabilityNotOwned, st⟩
  else
    match chanGate st connId with
    | .error e => ⟨some e, st⟩
    | .ok _ =>
      match getA st.channels chanId with
      | some _ => ⟨some .ChannelInvalidState, st⟩
      | none =>
        if !moduleAccepts then ⟨some .ModuleRejectedVersion, st⟩
        else
          let chans := setA st.channels chanId ⟨.Init, ord, connId, portId, cpPortId, none, version⟩
          ⟨none, { st with channels := chans }⟩

/-- Modelled from the spec: `ChanOpenTry` — create the record in `TryOpen`
(or advance an `Init` record of a crossing handshake) after verifying the
counterparty's membership proof through the client gate. -/
def chanOpenTry (st : State) (chanId : ChannelId) (portId : PortId)
    (moduleId : Nat) (connId : ConnectionId) (ord : ChanOrdering)
    (version : Nat) (cpPortId : PortId) (cpChanId : ChannelId)
    (moduleAccepts : Bool) (pr : MProof) : StepResult :=
  if !(decide (getA st.caps portId = some moduleId)) then ⟨some .CapabilityNotOwned, st⟩
  else
    match chanGate st connId with
    | .error e => ⟨some e, st⟩
    | .ok conn =>
      match verifyProofCS st conn.clientId pr with
      | .error e => ⟨some e, st⟩
      | .ok _ =>
        if !moduleAccepts then ⟨some .ModuleRejectedVersion, st⟩
        else
          match getA st.channels chanId with
          | some ch =>
            if ch.state = .Init then
              let ch' := { ch with state := ChanState.TryOpen,
                                   counterpartyChannelId := some cpChanId }
              ⟨none, { st with channels := setA st.channels chanId ch' }⟩
            else ⟨some .ChannelInvalidState, st⟩
          | none =>
            let chans := setA st.channels chanId
              ⟨.TryOpen, ord, connId, portId, cpPortId, some cpChanId, version⟩
            ⟨none, { st with channels := chans }⟩

/-- Modelled from the spec: `ChanOpenAck` — advance an `Init` record to
`Open` on proof that the counterparty reached `TryOpen`. -/
def chanOpenAck (st : State) (chanId : ChannelId) (moduleId : Nat)
    (cpChanId : ChannelId) (moduleAccepts : Bool) (pr : MProof) : StepResult :=
  match getA st.channels chanId with
  | none => ⟨some .ChannelNotFound, st⟩
  | some ch =>
    if !(decide (getA st.caps ch.portId = some moduleId)) then ⟨some .CapabilityNotOwned, st⟩
    else if !(decide (ch.state = .Init)) then ⟨some .ChannelInvalidState, st⟩
    else
      match chanGate st ch.connectionId with
      | .error e => ⟨some e, st⟩
      | .ok conn =>
        match verifyProofCS st conn.clientId pr with
        | .error e => ⟨some e, st⟩
        | .ok _ =>
          if !moduleAccepts then ⟨some .ModuleRejectedVersion, st⟩
          else
            let ch' := { ch with state := ChanState.Open,
                                 counterpartyChannelId := some cpChanId }
            ⟨none, { st with channels := setA st.channels chanId ch' }⟩

/-- Modelled from the spec: `ChanOpenConfirm` — advance a `TryOpen` record
to `Open` on proof that the counterparty is `Open`. -/
def chanOpenConfirm (st : State) (chanId : ChannelId) (moduleId : Nat)
    (pr : MProof) : StepResult :=
  match getA st.channels chanId with
  | none => ⟨some .ChannelNotFound, st⟩
  | some ch =>
    if !(decide (getA st.caps ch.portId = some moduleId)) then ⟨some .CapabilityNotOwned, st⟩
    else if !(decide (ch.state = .TryOpen)) then ⟨some .ChannelInvalidState, st⟩
    else
      match chanGate st ch.connectionId with
      | .error e => ⟨some e, st⟩
      | .ok conn =>
        match verifyProofCS st conn.clientId pr with
        | .error e => ⟨some e, st⟩
        | .ok _ =>
          let ch' := { ch with state := ChanState.Open }
          ⟨none, { st with channels := setA st.channels chanId ch' }⟩

/-- Modelled from the spec: `ChanCloseInit` — transition an `Open` channel
to `Closed` locally, no proof; `Closed` is terminal. -/
def chanCloseInit (st : State) (chanId : ChannelId) (moduleId : Nat) : StepResult :=
  match getA st.channels chanId with
  | none => ⟨some .ChannelNotFound, st⟩
  | some ch =>
    if !(decide (getA st.caps ch.portId = some moduleId)) then ⟨some .CapabilityNotOwned, st⟩
    else if !(decide (ch.state = .Open)) then ⟨some .ChannelInvalidState, st⟩
    else
      match chanGate st ch.connectionId with
      | .error e => ⟨some e, st⟩
      | .ok _ =>
        let ch' := { ch with state := ChanState.Closed }
        ⟨none, { st with channels := setA st.channels chanId ch' }⟩

/-- Modelled from the spec: `ChanCloseConfirm` — transition an `Open`
channel to `Closed` on proof that the counterparty end is closed. -/
def chanCloseConfirm (st : State) (chanId : ChannelId) (moduleId : Nat)
    (pr : MProof) : StepResult :=
  match getA st.channels chanId with
  | none => ⟨some .ChannelNotFound, st⟩
  | some ch =>
    if !(decide (getA st.caps ch.portId = some moduleId)) then ⟨some .CapabilityNotOwned, st⟩
    else if !(decide (ch.state = .Open)) then ⟨some .ChannelInvalidState, st⟩
    else
      match chanGate st ch.connectionId with
      | .error e => ⟨some e, st⟩
      | .ok conn =>
        match verifyProofCS st conn.clientId pr with
        | .error e => ⟨some e, st⟩
        | .ok _ =>
          let ch' := { ch with state := ChanState.Closed }
          ⟨none, { st with channels := setA st.channels chanId ch' }⟩

/-! ## Packet lifecycle

Modelled from the spec: the send / receive / acknowledge / timeout
transitions of the missing `ibc-core-channel` packet handlers.  Each
returns the unchanged store on any failure. -/

/-- Modelled from the spec: `SendPacket` — channel must be `Open`, the
client backing it not frozen, the timeout not already elapsed at local
height/time, and the sequence equal to the next-send counter; records the
commitment keyed by (channel, sequence) and increments the counter. -/
def sendPacket (st : State) (p : Packet) : StepResult :=
  match getA st.channels p.sourceChannel with
  | none => ⟨some .ChannelNotFound, st⟩
  | some ch =>
    if !(decide (ch.state = .Open)) then ⟨some .ChannelNotOpen, st⟩
    else
      match getA st.connections ch.connectionId with
      | none => ⟨some .ConnectionNotFound, st⟩
      | some conn =>
        match getA st.clients conn.clientId with
        | none => ⟨some .ClientNotFound, st⟩
        | some cl =>
          if cl.frozen then ⟨some .ClientFrozen, st⟩
          else if timeoutElapsedAt p st.hostHeight st.hostTimestamp then
            ⟨some .TimeoutAlreadyElapsed, st⟩
          else if !(decide (p.sequence = nextSendOf st p.sourceChannel)) then
            ⟨some .SequenceMismatch, st⟩
          else
            let comms := setA st.commitments (p.sourceChannel, p.sequence) (commitmentOf p)
            let nss := setA st.nextSendSeq p.sourceChannel (nextSendOf st p.sourceChannel + 1)
            ⟨none, { st with commitments := comms, nextSendSeq := nss }⟩

/-- Modelled from the spec: `RecvPacket` — channel `Open`, membership
proof of the counterparty's commitment through the client gate, timeout
not elapsed locally; ordered channels demand the exact next-receive
sequence and advance it by one, unordered channels reject an
already-present receipt and record a new one; the module callback's
acknowledgement (`ackVal`) is written for later retrieval. -/
def recvPacket (st : State) (p : Packet) (pr : MProof) (ackVal : Nat) : StepResult :=
  match getA st.channels p.destChannel with
  | none => ⟨some .ChannelNotFound, st⟩
  | some ch =>
    if !(decide (ch.state = .Open)) then ⟨some .ChannelNotOpen, st⟩
    else
      match getA st.connections ch.connectionId with
      | none => ⟨some .ConnectionNotFound, st⟩
      | some conn =>
        match verifyProofCS st conn.clientId pr with
        | .error e => ⟨some e, st⟩
        | .ok _ =>
          if timeoutElapsedAt p st.hostHeight st.hostTimestamp then
            ⟨some .TimeoutElapsed, st⟩
          else
            match ch.ordering with
            | .Ordered =>
              if !(decide (p.sequence = nextRecvOf st p.destChannel)) then
                ⟨some .SequenceMismatch, st⟩
              else
                let nrs := setA st.nextRecvSeq p.destChannel (nextRecvOf st p.destChannel + 1)
                let acks := setA st.acks (p.destChannel, p.sequence) ackVal
                ⟨none, { st with nextRecvSeq := nrs, acks := acks }⟩
            | .Unordered =>
              if memA st.receipts (p.destChannel, p.sequence) then
                ⟨some .DuplicateReceipt, st⟩
              else
                let acks := setA st.acks (p.destChannel, p.sequence) ackVal
                ⟨none, { st with receipts := (p.destChannel, p.sequence) :: st.receipts,
                                 acks := acks }⟩

/-- Modelled from the spec: `AcknowledgePacket` — channel `Open`,
membership proof of the counterparty's written acknowledgement through
the client gate, and a live send commitment matching
`Hash(data, timeout_height, timeout_timestamp)`; clears the commitment. -/
def ackPacket (st : State) (p : Packet) (pr : MProof) : StepResult :=
  match getA st.channels p.sourceChannel with
  | none => ⟨some .ChannelNotFound, st⟩
  | some ch =>
    if !(decide (ch.state = .Open)) then ⟨some .ChannelNotOpen, st⟩
    else
      match getA st.connections ch.connectionId with
      | none => ⟨some .ConnectionNotFound, st⟩
      | some conn =>
        match verifyProofCS st conn.clientId pr with
        | .error e => ⟨some e, st⟩
        | .ok _ =>
          match getA st.commitments (p.sourceChannel, p.sequence) with
          | none => ⟨some .CommitmentNotFound, st⟩
          | some cm =>
            if !(decide (cm = commitmentOf p)) then ⟨some .CommitmentMismatch, st⟩
            else
              let comms := delA st.commitments (p.sourceChannel, p.sequence)
              ⟨none, { st with commitments := comms }⟩

/-- Modelled from the spec: `TimeoutPacket` — the packet's timeout must
have elapsed on the counterparty side as evidenced by the proof (the
consensus state at the proof height supplies the counterparty
height/time); non-receipt is evidenced by the non-membership proof
(unordered) or by the attested counterparty next-receive counter not
having passed the sequence (ordered); clears the send commitment, and for
an ordered channel also closes the channel. -/
def timeoutPacket (st : State) (p : Packet) (cpNextRecv : Sequence) (pr : MProof) : StepResult :=
  match getA st.channels p.sourceChannel with
  | none => ⟨some .ChannelNotFound, st⟩
  | some ch =>
    if !(decide (ch.state = .Open)) then ⟨some .ChannelNotOpen, st⟩
    else
      match getA st.connections ch.connectionId with
      | none => ⟨some .ConnectionNotFound, st⟩
      | some conn =>
        match verifyProofCS st conn.clientId pr with
        | .error e => ⟨some e, st⟩
        | .ok cs =>
          if !(timeoutElapsedAt p pr.height cs.timestamp) then
            ⟨some .TimeoutNotElapsed, st⟩
          else if ch.ordering = .Ordered && decide (cpNextRecv > p.sequence) then
            ⟨some .UnexpectedReceiptState, st⟩
          else
            match getA st.commitments (p.sourceChannel, p.sequence) with
            | none => ⟨some .CommitmentNotFound, st⟩
            | some cm =>
              if !(decide (cm = commitmentOf p)) then ⟨some .CommitmentMismatch, st⟩
              else
                let comms := delA st.commitments (p.sourceChannel, p.sequence)
                match ch.ordering with
                | .Ordered =>
                  let ch' := { ch with state := ChanState.Closed }
                  ⟨none, { st with commitments := comms,
                                   channels := setA st.channels p.sourceChannel ch' }⟩
                | .Unordered =>
                  ⟨none, { st with commitments := comms }⟩

/-- Modelled from the spec: `TimeoutOnClose` — reclaim a commitment when
the counterparty channel is proved closed rather than timed out; same
commitment-clearing effect as `TimeoutPacket`. -/
def timeoutOnClose (st : State) (p : Packet) (cpNextRecv : Sequence) (pr : MProof) : StepResult :=
  match getA st.channels p.sourceChannel with
  | none => ⟨some .ChannelNotFound, st⟩
  | some ch =>
    if !(decide (ch.state = .Open)) then ⟨some .ChannelNotOpen, st⟩
    else
      match getA st.connections ch.connectionId with
      | none => ⟨some .ConnectionNotFound, st⟩
      | some conn =>
        match verifyProofCS st conn.clientId pr with
        | .error e => ⟨some e, st⟩
        | .ok _ =>
          if ch.ordering = .Ordered && decide (cpNextRecv > p.sequence) then
            ⟨some .UnexpectedReceiptState, st⟩
          else
            match getA st.commitments (p.sourceChannel, p.sequence) with
            | none => ⟨some .CommitmentNotFound, st⟩
            | some cm =>
              if !(decide (cm = commitmentOf p)) then ⟨some .CommitmentMismatch, st⟩
              else
                let comms := delA st.commitments (p.sourceChannel, p.sequence)
                match ch.ordering with
                | .Ordered =>
                  let ch' := { ch with state := ChanState.Closed }
                  ⟨none, { st with commitments := comms,
                                   channels := setA st.channels p.sourceChannel ch' }⟩
                | .Unordered =>
                  ⟨none, { st with commitments := comms }⟩

/-! ## The unified step relation -/

/-- One externally-submitted message: a handshake step or a packet
datagram, carrying the relevant identifiers, proof and proof height. -/
inductive Msg where
  | updateClient (cid : ClientId) (h : Header)
  | submitMisbehaviour (cid : ClientId) (ev : Misbehaviour)
  | connOpenInit (connId : ConnectionId) (cid cpCid : ClientId)
      (versions : List Nat) (delay : Nat)
  | connOpenTry (connId : ConnectionId) (cid cpCid : ClientId)
      (cpConnId : ConnectionId) (versions : List Nat) (delay : Nat) (pr : MProof)
  | connOpenAck (connId : ConnectionId) (cpConnId : ConnectionId)
      (cpVersion : Nat) (pr : MProof)
  | connOpenConfirm (connId : ConnectionId) (pr : MProof)
  | chanOpenInit (chanId : ChannelId) (portId : PortId) (moduleId : Nat)
      (connId : ConnectionId) (ord : ChanOrdering) (version : Nat)
      (cpPortId : PortId) (moduleAccepts : Bool)
  | chanOpenTry (chanId : ChannelId) (portId : PortId) (moduleId : Nat)
      (connId : ConnectionId) (ord : ChanOrdering) (version : Nat)
      (cpPortId : PortId) (cpChanId : ChannelId) (moduleAccepts : Bool) (pr : MProof)
  | chanOpenAck (chanId : ChannelId) (moduleId : Nat) (cpChanId : ChannelId)
      (moduleAccepts : Bool) (pr : MProof)
  | chanOpenConfirm (chanId : ChannelId) (moduleId : Nat) (pr : MProof)
  | chanCloseInit (chanId : ChannelId) (moduleId : Nat)
  | chanCloseConfirm (chanId : ChannelId) (moduleId : Nat) (pr : MProof)
  | sendPacket (p : Packet)
  | recvPacket (p : Packet) (pr : MProof) (ackVal : Nat)
  | ackPacket (p : Packet) (pr : MProof)
  | timeoutPacket (p : Packet) (cpNextRecv : Sequence) (pr : MProof)
  | timeoutOnClose (p : Packet) (cpNextRecv : Sequence) (pr : MProof)
deriving DecidableEq

/-- Apply one inbound message to the store: validation against current
state, proof checking through the client gate, then an atomic mutation or
an error with the store untouched. -/
def step (st : State) (m : Msg) : StepResult :=
  match m with
  | .updateClient cid h => updateClient st cid h
  | .submitMisbehaviour cid ev => submitMisbehaviour st cid ev
  | .connOpenInit connId cid cpCid vs d => connOpenInit st connId cid cpCid vs d
  | .connOpenTry connId cid cpCid cpConnId vs d pr =>
      connOpenTry st connId cid cpCid cpConnId vs d pr
  | .connOpenAck connId cpConnId v pr => connOpenAck st connId cpConnId v pr
  | .connOpenConfirm connId pr => connOpenConfirm st connId pr
  | .chanOpenInit chanId portId mid connId ord v cpp macc =>
      chanOpenInit st chanId portId mid connId ord v cpp macc
  | .chanOpenTry chanId portId mid connId ord v cpp cpc macc pr =>
      chanOpenTry st chanId portId mid connId ord v cpp cpc macc pr
  | .chanOpenAck chanId mid cpc macc pr => chanOpenAck st chanId mid cpc macc pr
  | .chanOpenConfirm chanId mid pr => chanOpenConfirm st chanId mid pr
  | .chanCloseInit chanId mid => chanCloseInit st chanId mid
  | .chanCloseConfirm chanId mid pr => chanCloseConfirm st chanId mid pr
  | .sendPacket p => sendPacket st p
  | .recvPacket p pr a => recvPacket st p pr a
  | .ackPacket p pr => ackPacket st p pr
  | .timeoutPacket p n pr => timeoutPacket st p n pr
  | .timeoutOnClose p n pr => timeoutOnClose st p n pr

/-! ## Observations on the store -/

/-- Handshake state of a connection record, when present. -/
def connStateOf (st : State) (connId : ConnectionId) : Option ConnState :=
  (getA st.connections connId).map (fun c => c.state)

/-- Rank of a connection record in the forward order (0 when absent). -/
def connRankOf (st : State) (connId : ConnectionId) : Nat :=
  match getA st.connections connId with
  | none => 0
  | some c => c.state.rank

/-- Handshake state of a channel record, when present. -/
def chanStateOf (st : State) (chanId : ChannelId) : Option ChanState :=
  (getA st.channels chanId).map (fun c => c.state)

/-- Rank of a channel record in the forward order (0 when absent). -/
def chanRankOf (st : State) (chanId : ChannelId) : Nat :=
  match getA st.channels chanId with
  | none => 0
  | some c => c.state.rank

/-- Rank of a channel record looked up in a raw channel list. -/
def rankL (chans : List (ChannelId × ChannelEnd)) (x : ChannelId) : Nat :=
  match getA chans x with
  | none => 0
  | some c => c.state.rank

/-- Latest tracked height of a client record, when present. -/
def latestHeightOf (st : State) (cid : ClientId) : Option Height :=
  (getA st.clients cid).map (fun c => c.latestHeight)

/-- Whether a client record is present and frozen. -/
def frozenOf (st : State) (cid : ClientId) : Bool :=
  match getA st.clients cid with
  | none => false
  | some cl => cl.frozen

/-- `some cid` when the client record exists. -/
def clientVia (st : State) (cid : ClientId) : Option ClientId :=
  match getA st.clients cid with
  | none => none
  | some _ => some cid

/-- The existing client a connection is bound to, when both records exist. -/
def clientOfConn (st : State) (connId : ConnectionId) : Option ClientId :=
  match getA st.connections connId with
  | none => none
  | some conn => clientVia st conn.clientId

/-- The existing client an `Open` connection is bound to. -/
def clientOfOpenConn (st : State) (connId : ConnectionId) : Option ClientId :=
  match getA st.connections connId with
  | none => none
  | some conn => if conn.state = .Open then clientVia st conn.clientId else none

/-- The client a message's validation dereferences for its freeze check:
`some cid` exactly when every guard that runs before that check passes, so
that a frozen `cid` is what the operation reports on. -/
def refClient (st : State) : Msg → Option ClientId
  | .updateClient cid _ => clientVia st cid
  | .submitMisbehaviour cid _ => clientVia st cid
  | .connOpenInit _ cid _ _ _ => clientVia st cid
  | .connOpenTry _ cid _ _ _ _ _ => clientVia st cid
  | .connOpenAck connId _ _ _ =>
      match getA st.connections connId with
      | none => none
      | some conn => if conn.state = .Init then clientVia st conn.clientId else none
  | .connOpenConfirm connId _ =>
      match getA st.connections connId with
      | none => none
      | some conn =>
        if conn.state = .Init ∨ conn.state = .TryOpen then clientVia st conn.clientId else none
  | .chanOpenInit _ portId mid connId _ _ _ _ =>
      if getA st.caps portId = some mid then clientOfOpenConn st connId else none
  | .chanOpenTry _ portId mid connId _ _ _ _ _ _ =>
      if getA st.caps portId = some mid then clientOfOpenConn st connId else none
  | .chanOpenAck chanId mid _ _ _ =>
      match getA st.channels chanId with
      | none => none
      | some ch =>
        if getA st.caps ch.portId = some mid ∧ ch.state = .Init then
          clientOfOpenConn st ch.connectionId
        else none
  | .chanOpenConfirm chanId mid _ =>
      match getA st.channels chanId with
      | none => none
      | some ch =>
        if getA st.caps ch.portId = some mid ∧ ch.state = .TryOpen then
          clientOfOpenConn st ch.connectionId
        else none
  | .chanCloseInit chanId mid =>
      match getA st.channels chanId with
      | none => none
      | some ch =>
        if getA st.caps ch.portId = some mid ∧ ch.state = .Open then
          clientOfOpenConn st ch.connectionId
        else none
  | .chanCloseConfirm chanId mid _ =>
      match getA st.channels chanId with
      | none => none
      | some ch =>
        if getA st.caps ch.portId = some mid ∧ ch.state = .Open then
          clientOfOpenConn st ch.connectionId
        else none
  | .sendPacket p =>
      match getA st.channels p.sourceChannel with
      | none => none
      | some ch => if ch.state = .Open then clientOfConn st ch.connectionId else none
  | .recvPacket p _ _ =>
      match getA st.channels p.destChannel with
      | none => none
      | some ch => if ch.state = .Open then clientOfConn st ch.connectionId else none
  | .ackPacket p _ =>
      match getA st.channels p.sourceChannel with
      | none => none
      | some ch => if ch.state = .Open then clientOfConn st ch.connectionId else none
  | .timeoutPacket p _ _ =>
      match getA st.channels p.sourceChannel with
      | none => none
      | some ch => if ch.state = .Open then clientOfConn st ch.connectionId else none
  | .timeoutOnClose p _ _ =>
      match getA st.channels p.sourceChannel with
      | none => none
      | some ch => if ch.state = .Open then clientOfConn st ch.connectionId else none

/-- The legal source configuration of each handshake step: what must have
been stored for the step to be in order.  `True` for non-handshake
messages. -/
def handshakeSourceOk (st : State) : Msg → Prop
  | .connOpenInit connId _ _ _ _ => getA st.connections connId = none
  | .connOpenTry connId _ _ _ _ _ _ =>
      getA st.connections connId = none ∨ connStateOf st connId = some .Init
  | .connOpenAck connId _ _ _ => connStateOf st connId = some .Init
  | .connOpenConfirm connId _ =>
      connStateOf st connId = some .Init ∨ connStateOf st connId = some .TryOpen
  | .chanOpenInit chanId _ _ _ _ _ _ _ => getA st.channels chanId = none
  | .chanOpenTry chanId _ _ _ _ _ _ _ _ _ =>
      getA st.channels chanId = none ∨ chanStateOf st chanId = some .Init
  | .chanOpenAck chanId _ _ _ _ => chanStateOf st chanId = some .Init
  | .chanOpenConfirm chanId _ _ => chanStateOf st chanId = some .TryOpen
  | .chanCloseInit chanId _ => chanStateOf st chanId = some .Open
  | .chanCloseConfirm chanId _ _ => chanStateOf st chanId = some .Open
  | _ => True

/-- The four packet operations of the packet lifecycle. -/
def isPacketOp : Msg → Prop
  | .sendPacket _ => True
  | .recvPacket _ _ _ => True
  | .ackPacket _ _ => True
  | .timeoutPacket _ _ _ => True
  | _ => False

/-! ## The aggregator crate `crates/ibc-core/src/lib.rs`

This part is translated from the one repository source file: a syntactic
embedding of its Rust items and crate attributes. -/

/-- A Rust item as it appears in the aggregator file: a module
declaration, a `pub use target::*` glob re-export (with its
`#[doc(inline)]` marker), or any item carrying logic of its own (`raw`
marks an `unsafe` block inside it). -/
inductive RustItem where
  | modDecl (name : String) (body : List RustItem)
  | useGlob (target : String) (docInline : Bool)
  | logicItem (name : String) (raw : Bool)

/-- The items of `crates/ibc-core/src/lib.rs`, in file order. -/
def ibcCoreLibItems : List RustItem := [
  .modDecl "entrypoint" [.useGlob "ibc_core_handler::entrypoint" true],
  .modDecl "channel" [.useGlob "ibc_core_channel" true],
  .modDecl "client" [.useGlob "ibc_core_client" true],
  .modDecl "commitment_types" [.useGlob "ibc_core_commitment_types" true],
  .modDecl "connection" [.useGlob "ibc_core_connection" true],
  .modDecl "host" [.useGlob "ibc_core_host" true],
  .modDecl "handler" [.useGlob "ibc_core_handler" true],
  .modDecl "router" [.useGlob "ibc_core_router" true],
  .modDecl "primitives" [.useGlob "ibc_primitives" true]]

/-- The crate-level attributes of `crates/ibc-core/src/lib.rs`, in file
order. -/
def ibcCoreLibAttrs : List String := [
  "no_std",
  "forbid(unsafe_code)",
  "cfg_attr(not(test), deny(clippy::unwrap_used))",
  "cfg_attr(not(test), deny(clippy::disallowed_methods, clippy::disallowed_types,))",
  "deny(warnings, trivial_numeric_casts, unused_import_braces, unused_qualifications, rust_2018_idioms)"]

/-- Whether an item is a module holding exactly one glob re-export and
nothing else. -/
def isPureReExport : RustItem → Bool
  | .modDecl _ [.useGlob _ _] => true
  | _ => false

/-- The underlying-crate path a named module re-exports, when it is a
pure re-export. -/
def moduleTarget : List RustItem → String → Option String
  | [], _ => none
  | .modDecl n [.useGlob t _] :: rest, name =>
      if n = name then some t else moduleTarget rest name
  | _ :: rest, name => moduleTarget rest name

/-- The public items visible through one module of the aggregator, given
an assignment `env` of item sets to underlying-crate paths: a glob
re-export exposes exactly the target's items. -/
def exportsThrough (env : String → List String) (items : List RustItem)
    (name : String) : List String :=
  match moduleTarget items name with
  | none => []
  | some t => env t

mutual

/-- Whether an item contains an `unsafe` block. -/
def itemRaw : RustItem → Bool
  | .modDecl _ body => itemsRaw body
  | .useGlob _ _ => false
  | .logicItem _ r => r

/-- Whether any item of a list contains an `unsafe` block. -/
def itemsRaw : List RustItem → Bool
  | [] => false
  | i :: rest => itemRaw i || itemsRaw rest

end

/-! ## Concrete sample data for the witnesses -/

/-- A healthy client at height 10 tracking one consensus state. -/
def clientOk : ClientRecord :=
  ⟨⟨0, 10⟩, false, [(⟨0, 10⟩, ⟨77, 1000⟩)]⟩

/-- The same client, frozen by misbehaviour. -/
def clientFr : ClientRecord :=
  ⟨⟨0, 10⟩, true, [(⟨0, 10⟩, ⟨77, 1000⟩)]⟩

/-- An `Open` connection bound to `client-a`. -/
def connOpenEnd : ConnectionEnd :=
  ⟨.Open, "client-a", "client-b", some "conn-b", [1], 0⟩

/-- An `Init` connection bound to `client-a`. -/
def connInitEnd : ConnectionEnd :=
  ⟨.Init, "client-a", "client-b", none, [1], 0⟩

/-- An `Open` ordered channel on `conn-a`, port `port-a`. -/
def chanOrdEnd : ChannelEnd :=
  ⟨.Open, .Ordered, "conn-a", "port-a", "port-b", some "chan-b", 1⟩

/-- An `Open` unordered channel on `conn-a`, port `port-a`. -/
def chanUnoEnd : ChannelEnd :=
  ⟨.Open, .Unordered, "conn-a", "port-a", "port-b", some "chan-b", 1⟩

/-- A sample store: one healthy client, an `Open` and an `Init`
connection, an open ordered and an open unordered channel, two live send
commitments, one receipt, one owned port capability. -/
def stBase : State :=
  { clients := [("client-a", clientOk)]
    connections := [("conn-a", connOpenEnd), ("conn-i", connInitEnd)]
    channels := [("chan-o", chanOrdEnd), ("chan-u", chanUnoEnd)]
    nextSendSeq := [("chan-o", 2), ("chan-u", 3)]
    nextRecvSeq := []
    commitments := [(("chan-o", 1), ⟨42, ⟨0, 100⟩, 0⟩), (("chan-u", 2), ⟨43, ⟨0, 8⟩, 0⟩)]
    receipts := [("chan-u", 5)]
    acks := []
    caps := [("port-a", 7)]
    hostHeight := ⟨0, 5⟩
    hostTimestamp := 50 }

/-- The sample store with its client frozen. -/
def stFrozen : State :=
  { stBase with clients := [("client-a", clientFr)] }

/-- An inbound packet for the ordered channel, sequence 1, timeout far
away. -/
def pktRecvO : Packet :=
  ⟨1, "port-b", "chan-b", "port-a", "chan-o", 42, ⟨0, 100⟩, 0⟩

/-- An inbound packet for the unordered channel, sequence 6. -/
def pktRecvU6 : Packet :=
  ⟨6, "port-b", "chan-b", "port-a", "chan-u", 42, ⟨0, 100⟩, 0⟩

/-- An inbound packet for the unordered channel, sequence 5 (already
received). -/
def pktRecvU5 : Packet :=
  ⟨5, "port-b", "chan-b", "port-a", "chan-u", 42, ⟨0, 100⟩, 0⟩

/-- The outbound packet whose commitment sits at ("chan-o", 1). -/
def pktSrcO : Packet :=
  ⟨1, "port-a", "chan-o", "port-b", "chan-b", 42, ⟨0, 100⟩, 0⟩

/-- The outbound packet whose commitment sits at ("chan-u", 2); its
timeout height 8 has elapsed at the proof height 10. -/
def pktSrcU : Packet :=
  ⟨2, "port-a", "chan-u", "port-b", "chan-b", 43, ⟨0, 8⟩, 0⟩

/-- A proof at the tracked height 10 opening against the stored root. -/
def prOk : MProof := ⟨⟨0, 10⟩, 77, true⟩

/-- A proof at height 11, beyond the tracked height 10. -/
def prHigh : MProof := ⟨⟨0, 11⟩, 77, true⟩

/-- A fresh outbound packet for the ordered channel at the next-send
sequence 2. -/
def pktSendO : Packet :=
  ⟨2, "port-a", "chan-o", "port-b", "chan-b", 44, ⟨0, 100⟩, 0⟩

/-! ## Store lemmas -/

theorem getA_filter_ne {K V : Type} [DecidableEq K] (l : List (K × V)) (k k' : K)
    (h : k' ≠ k) :
    getA (l.filter (fun kv => !(decide (kv.1 = k)))) k' = getA l k' := by
  induction l with
  | nil => rfl
  | cons a rest ih =>
    rcases a with ⟨ak, av⟩
    by_cases ha : ak = k
    · subst ha
      have h2 : ak ≠ k' := Ne.symm h
      simp [List.filter_cons, getA, h2, ih]
    · by_cases hk' : ak = k'
      · subst hk'
        simp [List.filter_cons, getA, ha, ih]
      · simp [List.filter_cons, getA, ha, hk', ih]

theorem getA_delA_ne {K V : Type} [DecidableEq K] (l : List (K × V)) (k k' : K)
    (h : k' ≠ k) : getA (delA l k) k' = getA l k' :=
  getA_filter_ne l k k' h

theorem getA_delA_self {K V : Type} [DecidableEq K] (l : List (K × V)) (k : K) :
    getA (delA l k) k = none := by
  induction l with
  | nil => rfl
  | cons a rest ih =>
    rcases a with ⟨ak, av⟩
    unfold delA at *
    by_cases ha : ak = k
    · simp [List.filter_cons, ha, ih]
    · simp [List.filter_cons, getA, ha, ih]

theorem getA_setA {K V : Type} [DecidableEq K] (l : List (K × V)) (k k' : K) (v : V) :
    getA (setA l k v) k' = if k' = k then some v else getA l k' := by
  by_cases h : k' = k
  · simp [setA, getA, h]
  · simp only [setA, getA, Ne.symm h, if_neg, if_neg h]
    exact getA_filter_ne l k k' h

theorem memA_cons {K : Type} [DecidableEq K] (a : K) (l : List K) (k : K) :
    memA (a :: l) k = (decide (a = k) || memA l k) := by
  by_cases h : a = k <;> simp [memA, h]

/-! ## Height lemmas -/

theorem hle_of_refl (a : Height) : hle a a = true := by
  simp [hle]

theorem hle_hmax_left (a b : Height) : hle a (hmax a b) = true := by
  unfold hmax
  split
  · assumption
  · exact hle_of_refl a

/-! ## Frame lemmas: the store fields each operation leaves untouched -/

theorem updateClient_frame (st : State) (cid : ClientId) (h : Header) :
    ((updateClient st cid h).state).connections = st.connections ∧
    ((updateClient st cid h).state).channels = st.channels ∧
    ((updateClient st cid h).state).commitments = st.commitments ∧
    ((updateClient st cid h).state).nextSendSeq = st.nextSendSeq ∧
    ((updateClient st cid h).state).nextRecvSeq = st.nextRecvSeq ∧
    ((updateClient st cid h).state).receipts = st.receipts := by
  unfold updateClient
  repeat' split
  all_goals exact ⟨rfl, rfl, rfl, rfl, rfl, rfl⟩

theorem updateClient_atomic (st : State) (cid : ClientId) (h : Header) :
    (updateClient st cid h).result = none ∨ (updateClient st cid h).state = st := by
  unfold updateClient
  repeat' split
  all_goals simp

theorem submitMisbehaviour_frame (st : State) (cid : ClientId) (ev : Misbehaviour) :
    ((submitMisbehaviour st cid ev).state).connections = st.connections ∧
    ((submitMisbehaviour st cid ev).state).channels = st.channels ∧
    ((submitMisbehaviour st cid ev).state).commitments = st.commitments ∧
    ((submitMisbehaviour st cid ev).state).nextSendSeq = st.nextSendSeq ∧
    ((submitMisbehaviour st cid ev).state).nextRecvSeq = st.nextRecvSeq ∧
    ((submitMisbehaviour st cid ev).state).receipts = st.receipts := by
  unfold submitMisbehaviour
  repeat' split
  all_goals exact ⟨rfl, rfl, rfl, rfl, rfl, rfl⟩

theorem submitMisbehaviour_atomic (st : State) (cid : ClientId) (ev : Misbehaviour) :
    (submitMisbehaviour st cid ev).result = none ∨ (submitMisbehaviour st cid ev).state = st := by
  unfold submitMisbehaviour
  repeat' split
  all_goals simp

theorem connOpenInit_frame (st : State) (connId : ConnectionId) (cid cpCid : ClientId)
    (vs : List Nat) (d : Nat) :
    ((connOpenInit st connId cid cpCid vs d).state).clients = st.clients ∧
    ((connOpenInit st connId cid cpCid vs d).state).channels = st.channels ∧
    ((connOpenInit st connId cid cpCid vs d).state).commitments = st.commitments ∧
    ((connOpenInit st connId cid cpCid vs d).state).nextSendSeq = st.nextSendSeq ∧
    ((connOpenInit st connId cid cpCid vs d).state).nextRecvSeq = st.nextRecvSeq ∧
    ((connOpenInit st connId cid cpCid vs d).state).receipts = st.receipts := by
  unfold connOpenInit
  repeat' split
  all_goals exact ⟨rfl, rfl, rfl, rfl, rfl, rfl⟩

theorem connOpenInit_atomic (st : State) (connId : ConnectionId) (cid cpCid : ClientId)
    (vs : List Nat) (d : Nat) :
    (connOpenInit st connId cid cpCid vs d).result = none ∨
    (connOpenInit st connId cid cpCid vs d).state = st := by
  unfold connOpenInit
  repeat' split
  all_goals simp

theorem connOpenTry_frame (st : State) (connId : ConnectionId) (cid cpCid : ClientId)
    (cpConnId : ConnectionId) (vs : List Nat) (d : Nat) (pr : MProof) :
    ((connOpenTry st connId cid cpCid cpConnId vs d pr).state).clients = st.clients ∧
    ((connOpenTry st connId cid cpCid cpConnId vs d pr).state).channels = st.channels ∧
    ((connOpenTry st connId cid cpCid cpConnId vs d pr).state).commitments = st.commitments ∧
    ((connOpenTry st connId cid cpCid cpConnId vs d pr).state).nextSendSeq = st.nextSendSeq ∧
    ((connOpenTry st connId cid cpCid cpConnId vs d pr).state).nextRecvSeq = st.nextRecvSeq ∧
    ((connOpenTry st connId cid cpCid cpConnId vs d pr).state).receipts = st.receipts := by
  unfold connOpenTry
  repeat' split
  all_goals exact ⟨rfl, rfl, rfl, rfl, rfl, rfl⟩

theorem connOpenTry_atomic (st : State) (connId : ConnectionId) (cid cpCid : ClientId)
    (cpConnId : ConnectionId) (vs : List Nat) (d : Nat) (pr : MProof) :
    (connOpenTry st connId cid cpCid cpConnId vs d pr).result = none ∨
    (connOpenTry st connId cid cpCid cpConnId vs d pr).state = st := by
  unfold connOpenTry
  repeat' split
  all_goals simp

theorem connOpenAck_frame (st : State) (connId cpConnId : ConnectionId)
    (v : Nat) (pr : MProof) :
    ((connOpenAck st connId cpConnId v pr).state).clients = st.clients ∧
    ((connOpenAck st connId cpConnId v pr).state).channels = st.channels ∧
    ((connOpenAck st connId cpConnId v pr).state).commitments = st.commitments ∧
    ((connOpenAck st connId cpConnId v pr).state).nextSendSeq = st.nextSendSeq ∧
    ((connOpenAck st connId cpConnId v pr).state).nextRecvSeq = st.nextRecvSeq ∧
    ((connOpenAck st connId cpConnId v pr).state).receipts = st.receipts := by
  unfold connOpenAck
  repeat' split
  all_goals exact ⟨rfl, rfl, rfl, rfl, rfl, rfl⟩

theorem connOpenAck_atomic (st : State) (connId cpConnId : ConnectionId)
    (v : Nat) (pr : MProof) :
    (connOpenAck st connId cpConnId v pr).result = none ∨
    (connOpenAck st connId cpConnId v pr).state = st := by
  unfold connOpenAck
  repeat' split
  all_goals simp

theorem connOpenConfirm_frame (st : State) (connId : ConnectionId) (pr : MProof) :
    ((connOpenConfirm st connId pr).state).clients = st.clients ∧
    ((connOpenConfirm st connId pr).state).channels = st.channels ∧
    ((connOpenConfirm st connId pr).state).commitments = st.commitments ∧
    ((connOpenConfirm st connId pr).state).nextSendSeq = st.nextSendSeq ∧
    ((connOpenConfirm st connId pr).state).nextRecvSeq = st.nextRecvSeq ∧
    ((connOpenConfirm st connId pr).state).receipts = st.receipts := by
  unfold connOpenConfirm
  repeat' split
  all_goals exact ⟨rfl, rfl, rfl, rfl, rfl, rfl⟩

theorem connOpenConfirm_atomic (st : State) (connId : ConnectionId) (pr : MProof) :
    (connOpenConfirm st connId pr).result = none ∨
    (connOpenConfirm st connId pr).state = st := by
  unfold connOpenConfirm
  repeat' split
  all_goals simp

theorem chanOpenInit_frame (st : State) (chanId : ChannelId) (portId : PortId)
    (mid : Nat) (connId : ConnectionId) (ord : ChanOrdering) (v : Nat)
    (cpp : PortId) (macc : Bool) :
    ((chanOpenInit st chanId portId mid connId ord v cpp macc).state).clients = st.clients ∧
    ((chanOpenInit st chanId portId mid connId ord v cpp macc).state).connections = st.connections ∧
    ((chanOpenInit st chanId portId mid connId ord v cpp macc).state).commitments = st.commitments ∧
    ((chanOpenInit st chanId portId mid connId ord v cpp macc).state).nextSendSeq = st.nextSendSeq ∧
    ((chanOpenInit st chanId portId mid connId ord v cpp macc).state).nextRecvSeq = st.nextRecvSeq ∧
    ((chanOpenInit st chanId portId mid connId ord v cpp macc).state).receipts = st.receipts := by
  unfold chanOpenInit
  repeat' split
  all_goals exact ⟨rfl, rfl, rfl, rfl, rfl, rfl⟩

theorem chanOpenInit_atomic (st : State) (chanId : ChannelId) (portId : PortId)
    (mid : Nat) (connId : ConnectionId) (ord : ChanOrdering) (v : Nat)
    (cpp : PortId) (macc : Bool) :
    (chanOpenInit st chanId portId mid connId ord v cpp macc).result = none ∨
    (chanOpenInit st chanId portId mid connId ord v cpp macc).state = st := by
  unfold chanOpenInit
  repeat' split
  all_goals simp

theorem chanOpenTry_frame (st : State) (chanId : ChannelId) (portId : PortId)
    (mid : Nat) (connId : ConnectionId) (ord : ChanOrdering) (v : Nat)
    (cpp : PortId) (cpc : ChannelId) (macc : Bool) (pr : MProof) :
    ((chanOpenTry st chanId portId mid connId ord v cpp cpc macc pr).state).clients = st.clients ∧
    ((chanOpenTry st chanId portId mid connId ord v cpp cpc macc pr).state).connections = st.connections ∧
    ((chanOpenTry st chanId portId mid connId ord v cpp cpc macc pr).state).commitments = st.commitments ∧
    ((chanOpenTry st chanId portId mid connId ord v cpp cpc macc pr).state).nextSendSeq = st.nextSendSeq ∧
    ((chanOpenTry st chanId portId mid connId ord v cpp cpc macc pr).state).nextRecvSeq = st.nextRecvSeq ∧
    ((chanOpenTry st chanId portId mid connId ord v cpp cpc macc pr).state).receipts = st.receipts := by
  unfold chanOpenTry
  repeat' split
  all_goals exact ⟨rfl, rfl, rfl, rfl, rfl, rfl⟩

theorem chanOpenTry_atomic (st : State) (chanId : ChannelId) (portId : PortId)
    (mid : Nat) (connId : ConnectionId) (ord : ChanOrdering) (v : Nat)
    (cpp : PortId) (cpc : ChannelId) (macc : Bool) (pr : MProof) :
    (chanOpenTry st chanId portId mid connId ord v cpp cpc macc pr).result = none ∨
    (chanOpenTry st chanId portId mid connId ord v cpp cpc macc pr).state = st := by
  unfold chanOpenTry
  repeat' split
  all_goals simp

theorem chanOpenAck_frame (st : State) (chanId : ChannelId) (mid : Nat)
    (cpc : ChannelId) (macc : Bool) (pr : MProof) :
    ((chanOpenAck st chanId mid cpc macc pr).state).clients = st.clients ∧
    ((chanOpenAck st chanId mid cpc macc pr).state).connections = st.connections ∧
    ((chanOpenAck st chanId mid cpc macc pr).state).commitments = st.commitments ∧
    ((chanOpenAck st chanId mid cpc macc pr).state).nextSendSeq = st.nextSendSeq ∧
    ((chanOpenAck st chanId mid cpc macc pr).state).nextRecvSeq = st.nextRecvSeq ∧
    ((chanOpenAck st chanId mid cpc macc pr).state).receipts = st.receipts := by
  unfold chanOpenAck
  repeat' split
  all_goals exact ⟨rfl, rfl, rfl, rfl, rfl, rfl⟩

theorem chanOpenAck_atomic (st : State) (chanId : ChannelId) (mid : Nat)
    (cpc : ChannelId) (macc : Bool) (pr : MProof) :
    (chanOpenAck st chanId mid cpc macc pr).result = none ∨
    (chanOpenAck st chanId mid cpc macc pr).state = st := by
  unfold chanOpenAck
  repeat' split
  all_goals simp

theorem chanOpenConfirm_frame (st : State) (chanId : ChannelId) (mid : Nat)
    (pr : MProof) :
    ((chanOpenConfirm st chanId mid pr).state).clients = st.clients ∧
    ((chanOpenConfirm st chanId mid pr).state).connections = st.connections ∧
    ((chanOpenConfirm st chanId mid pr).state).commitments = st.commitments ∧
    ((chanOpenConfirm st chanId mid pr).state).nextSendSeq = st.nextSendSeq ∧
    ((chanOpenConfirm st chanId mid pr).state).nextRecvSeq = st.nextRecvSeq ∧
    ((chanOpenConfirm st chanId mid pr).state).receipts = st.receipts := by
  unfold chanOpenConfirm
  repeat' split
  all_goals exact ⟨rfl, rfl, rfl, rfl, rfl, rfl⟩

theorem chanOpenConfirm_atomic (st : State) (chanId : ChannelId) (mid : Nat)
    (pr : MProof) :
    (chanOpenConfirm st chanId mid pr).result = none ∨
    (chanOpenConfirm st chanId mid pr).state = st := by
  unfold chanOpenConfirm
  repeat' split
  all_goals simp

theorem chanCloseInit_frame (st : State) (chanId : ChannelId) (mid : Nat) :
    ((chanCloseInit st chanId mid).state).clients = st.clients ∧
    ((chanCloseInit st chanId mid).state).connections = st.connections ∧
    ((chanCloseInit st chanId mid).state).commitments = st.commitments ∧
    ((chanCloseInit st chanId mid).state).nextSendSeq = st.nextSendSeq ∧
    ((chanCloseInit st chanId mid).state).nextRecvSeq = st.nextRecvSeq ∧
    ((chanCloseInit st chanId mid).state).receipts = st.receipts := by
  unfold chanCloseInit
  repeat' split
  all_goals exact ⟨rfl, rfl, rfl, rfl, rfl, rfl⟩

theorem chanCloseInit_atomic (st : State) (chanId : ChannelId) (mid : Nat) :
    (chanCloseInit st chanId mid).result = none ∨
    (chanCloseInit st chanId mid).state = st := by
  unfold chanCloseInit
  repeat' split
  all_goals simp

theorem chanCloseConfirm_frame (st : State) (chanId : ChannelId) (mid : Nat)
    (pr : MProof) :
    ((chanCloseConfirm st chanId mid pr).state).clients = st.clients ∧
    ((chanCloseConfirm st chanId mid pr).state).connections = st.connections ∧
    ((chanCloseConfirm st chanId mid pr).state).commitments = st.commitments ∧
    ((chanCloseConfirm st chanId mid pr).state).nextSendSeq = st.nextSendSeq ∧
    ((chanCloseConfirm st chanId mid pr).state).nextRecvSeq = st.nextRecvSeq ∧
    ((chanCloseConfirm st chanId mid pr).state).receipts = st.receipts := by
  unfold chanCloseConfirm
  repeat' split
  all_goals exact ⟨rfl, rfl, rfl, rfl, rfl, rfl⟩

theorem chanCloseConfirm_atomic (st : State) (chanId : ChannelId) (mid : Nat)
    (pr : MProof) :
    (chanCloseConfirm st chanId mid pr).result = none ∨
    (chanCloseConfirm st chanId mid pr).state = st := by
  unfold chanCloseConfirm
  repeat' split
  all_goals simp

theorem sendPacket_frame (st : State) (p : Packet) :
    ((sendPacket st p).state).clients = st.clients ∧
    ((sendPacket st p).state).connections = st.connections ∧
    ((sendPacket st p).state).channels = st.channels ∧
    ((sendPacket st p).state).nextRecvSeq = st.nextRecvSeq ∧
    ((sendPacket st p).state).receipts = st.receipts := by
  unfold sendPacket
  repeat' split
  all_goals exact ⟨rfl, rfl, rfl, rfl, rfl⟩

theorem sendPacket_atomic (st : State) (p : Packet) :
    (sendPacket st p).result = none ∨ (sendPacket st p).state = st := by
  unfold sendPacket
  repeat' split
  all_goals simp

theorem recvPacket_frame (st : State) (p : Packet) (pr : MProof) (a : Nat) :
    ((recvPacket st p pr a).state).clients = st.clients ∧
    ((recvPacket st p pr a).state).connections = st.connections ∧
    ((recvPacket st p pr a).state).channels = st.channels ∧
    ((recvPacket st p pr a).state).commitments = st.commitments ∧
    ((recvPacket st p pr a).state).nextSendSeq = st.nextSendSeq := by
  unfold recvPacket
  repeat' split
  all_goals exact ⟨rfl, rfl, rfl, rfl, rfl⟩

theorem recvPacket_atomic (st : State) (p : Packet) (pr : MProof) (a : Nat) :
    (recvPacket st p pr a).result = none ∨ (recvPacket st p pr a).state = st := by
  unfold recvPacket
  repeat' split
  all_goals simp

theorem ackPacket_frame (st : State) (p : Packet) (pr : MProof) :
    ((ackPacket st p pr).state).clients = st.clients ∧
    ((ackPacket st p pr).state).connections = st.connections ∧
    ((ackPacket st p pr).state).channels = st.channels ∧
    ((ackPacket st p pr).state).nextSendSeq = st.nextSendSeq ∧
    ((ackPacket st p pr).state).nextRecvSeq = st.nextRecvSeq ∧
    ((ackPacket st p pr).state).receipts = st.receipts := by
  unfold ackPacket
  repeat' split
  all_goals exact ⟨rfl, rfl, rfl, rfl, rfl, rfl⟩

theorem ackPacket_atomic (st : State) (p : Packet) (pr : MProof) :
    (ackPacket st p pr).result = none ∨ (ackPacket st p pr).state = st := by
  unfold ackPacket
  repeat' split
  all_goals simp

theorem timeoutPacket_frame (st : State) (p : Packet) (n : Sequence) (pr : MProof) :
    ((timeoutPacket st p n pr).state).clients = st.clients ∧
    ((timeoutPacket st p n pr).state).connections = st.connections ∧
    ((timeoutPacket st p n pr).state).nextSendSeq = st.nextSendSeq ∧
    ((timeoutPacket st p n pr).state).nextRecvSeq = st.nextRecvSeq ∧
    ((timeoutPacket st p n pr).state).receipts = st.receipts := by
  unfold timeoutPacket
  repeat' split
  all_goals exact ⟨rfl, rfl, rfl, rfl, rfl⟩

theorem timeoutPacket_atomic (st : State) (p : Packet) (n : Sequence) (pr : MProof) :
    (timeoutPacket st p n pr).result = none ∨ (timeoutPacket st p n pr).state = st := by
  unfold timeoutPacket
  repeat' split
  all_goals simp

theorem timeoutOnClose_frame (st : State) (p : Packet) (n : Sequence) (pr : MProof) :
    ((timeoutOnClose st p n pr).state).clients = st.clients ∧
    ((timeoutOnClose st p n pr).state).connections = st.connections ∧
    ((timeoutOnClose st p n pr).state).nextSendSeq = st.nextSendSeq ∧
    ((timeoutOnClose st p n pr).state).nextRecvSeq = st.nextRecvSeq ∧
    ((timeoutOnClose st p n pr).state).receipts = st.receipts := by
  unfold timeoutOnClose
  repeat' split
  all_goals exact ⟨rfl, rfl, rfl, rfl, rfl⟩

theorem timeoutOnClose_atomic (st : State) (p : Packet) (n : Sequence) (pr : MProof) :
    (timeoutOnClose st p n pr).result = none ∨ (timeoutOnClose st p n pr).state = st := by
  unfold timeoutOnClose
  repeat' split
  all_goals simp

/-! ## Rank lemmas: handshake records only march forward -/

theorem connRankOf_setA (st : State) (connId : ConnectionId) (c : ConnectionEnd)
    (x : ConnectionId) :
    connRankOf { st with connections := setA st.connections connId c } x =
    if x = connId then c.state.rank else connRankOf st x := by
  unfold connRankOf
  simp only [getA_setA]
  by_cases h : x = connId <;> simp [h]

theorem chanRankOf_setA (st : State) (chanId : ChannelId) (c : ChannelEnd)
    (x : ChannelId) :
    chanRankOf { st with channels := setA st.channels chanId c } x =
    if x = chanId then c.state.rank else chanRankOf st x := by
  unfold chanRankOf
  simp only [getA_setA]
  by_cases h : x = chanId <;> simp [h]

theorem connRankOf_congr (st st' : State) (h : st'.connections = st.connections)
    (x : ConnectionId) : connRankOf st' x = connRankOf st x := by
  unfold connRankOf
  rw [h]

theorem chanRankOf_congr (st st' : State) (h : st'.channels = st.channels)
    (x : ChannelId) : chanRankOf st' x = chanRankOf st x := by
  unfold chanRankOf
  rw [h]

theorem connOpenInit_conn_mono (st : State) (connId : ConnectionId)
    (cid cpCid : ClientId) (vs : List Nat) (d : Nat) (x : ConnectionId) :
    connRankOf st x ≤ connRankOf ((connOpenInit st connId cid cpCid vs d).state) x := by
  unfold connOpenInit
  repeat' split
  all_goals try exact Nat.le_refl _
  all_goals rw [connRankOf_setA]
  all_goals split
  all_goals try exact Nat.le_refl _
  all_goals unfold connRankOf
  all_goals simp_all [ConnState.rank]

theorem connOpenTry_conn_mono (st : State) (connId : ConnectionId)
    (cid cpCid : ClientId) (cpConnId : ConnectionId) (vs : List Nat) (d : Nat)
    (pr : MProof) (x : ConnectionId) :
    connRankOf st x ≤
    connRankOf ((connOpenTry st connId cid cpCid cpConnId vs d pr).state) x := by
  unfold connOpenTry
  repeat' split
  all_goals try exact Nat.le_refl _
  all_goals rw [connRankOf_setA]
  all_goals split
  all_goals try exact Nat.le_refl _
  all_goals unfold connRankOf
  all_goals simp_all [ConnState.rank]

theorem connOpenAck_conn_mono (st : State) (connId cpConnId : ConnectionId)
    (v : Nat) (pr : MProof) (x : ConnectionId) :
    connRankOf st x ≤ connRankOf ((connOpenAck st connId cpConnId v pr).state) x := by
  unfold connOpenAck
  repeat' split
  all_goals try exact Nat.le_refl _
  all_goals rw [connRankOf_setA]
  all_goals split
  all_goals try exact Nat.le_refl _
  all_goals unfold connRankOf
  all_goals simp_all [ConnState.rank]

theorem connOpenConfirm_conn_mono (st : State) (connId : ConnectionId)
    (pr : MProof) (x : ConnectionId) :
    connRankOf st x ≤ connRankOf ((connOpenConfirm st connId pr).state) x := by
  unfold connOpenConfirm
  repeat' split
  all_goals try exact Nat.le_refl _
  all_goals rw [connRankOf_setA]
  all_goals split
  all_goals try exact Nat.le_refl _
  all_goals unfold connRankOf
  all_goals simp_all [ConnState.rank]
  all_goals (rcases ‹_ ∨ _› with hc | hc <;> simp_all [ConnState.rank])

theorem chanOpenInit_chan_mono (st : State) (chanId : ChannelId) (portId : PortId)
    (mid : Nat) (connId : ConnectionId) (ord : ChanOrdering) (v : Nat)
    (cpp : PortId) (macc : Bool) (x : ChannelId) :
    chanRankOf st x ≤
    chanRankOf ((chanOpenInit st chanId portId mid connId ord v cpp macc).state) x := by
  unfold chanOpenInit
  repeat' split
  all_goals try exact Nat.le_refl _
  all_goals rw [chanRankOf_setA]
  all_goals split
  all_goals try exact Nat.le_refl _
  all_goals unfold chanRankOf
  all_goals simp_all [ChanState.rank]

theorem chanOpenTry_chan_mono (st : State) (chanId : ChannelId) (portId : PortId)
    (mid : Nat) (connId : ConnectionId) (ord : ChanOrdering) (v : Nat)
    (cpp : PortId) (cpc : ChannelId) (macc : Bool) (pr : MProof) (x : ChannelId) :
    chanRankOf st x ≤
    chanRankOf ((chanOpenTry st chanId portId mid connId ord v cpp cpc macc pr).state) x := by
  unfold chanOpenTry
  repeat' split
  all_goals try exact Nat.le_refl _
  all_goals rw [chanRankOf_setA]
  all_goals split
  all_goals try exact Nat.le_refl _
  all_goals unfold chanRankOf
  all_goals simp_all [ChanState.rank]

theorem chanOpenAck_chan_mono (st : State) (chanId : ChannelId) (mid : Nat)
    (cpc : ChannelId) (macc : Bool) (pr : MProof) (x : ChannelId) :
    chanRankOf st x ≤ chanRankOf ((chanOpenAck st chanId mid cpc macc pr).state) x := by
  unfold chanOpenAck
  repeat' split
  all_goals try exact Nat.le_refl _
  all_goals rw [chanRankOf_setA]
  all_goals split
  all_goals try exact Nat.le_refl _
  all_goals unfold chanRankOf
  all_goals simp_all [ChanState.rank]

theorem chanOpenConfirm_chan_mono (st : State) (chanId : ChannelId) (mid : Nat)
    (pr : MProof) (x : ChannelId) :
    chanRankOf st x ≤ chanRankOf ((chanOpenConfirm st chanId mid pr).state) x := by
  unfold chanOpenConfirm
  repeat' split
  all_goals try exact Nat.le_refl _
  all_goals rw [chanRankOf_setA]
  all_goals split
  all_goals try exact Nat.le_refl _
  all_goals unfold chanRankOf
  all_goals simp_all [ChanState.rank]

theorem chanCloseInit_chan_mono (st : State) (chanId : ChannelId) (mid : Nat)
    (x : ChannelId) :
    chanRankOf st x ≤ chanRankOf ((chanCloseInit st chanId mid).state) x := by
  unfold chanCloseInit
  repeat' split
  all_goals try exact Nat.le_refl _
  all_goals rw [chanRankOf_setA]
  all_goals split
  all_goals try exact Nat.le_refl _
  all_goals unfold chanRankOf
  all_goals simp_all [ChanState.rank]

theorem chanCloseConfirm_chan_mono (st : State) (chanId : ChannelId) (mid : Nat)
    (pr : MProof) (x : ChannelId) :
    chanRankOf st x ≤ chanRankOf ((chanCloseConfirm st chanId mid pr).state) x := by
  unfold chanCloseConfirm
  repeat' split
  all_goals try exact Nat.le_refl _
  all_goals rw [chanRankOf_setA]
  all_goals split
  all_goals try exact Nat.le_refl _
  all_goals unfold chanRankOf
  all_goals simp_all [ChanState.rank]

theorem rankL_setA_le (chans : List (ChannelId × ChannelEnd)) (chanId : ChannelId)
    (c : ChannelEnd) (x : ChannelId)
    (h : rankL chans chanId ≤ c.state.rank) :
    rankL chans x ≤ rankL (setA chans chanId c) x := by
  unfold rankL
  rw [getA_setA]
  by_cases hx : x = chanId
  · subst hx
    simp only [if_pos rfl]
    exact h
  · simp [hx]

theorem timeoutPacket_chan_mono (st : State) (p : Packet) (n : Sequence)
    (pr : MProof) (x : ChannelId) :
    chanRankOf st x ≤ chanRankOf ((timeoutPacket st p n pr).state) x := by
  unfold timeoutPacket
  repeat' split
  all_goals try exact Nat.le_refl _
  all_goals show rankL st.channels x ≤ _
  all_goals apply rankL_setA_le
  all_goals unfold rankL
  all_goals simp_all [ChanState.rank]

theorem timeoutOnClose_chan_mono (st : State) (p : Packet) (n : Sequence)
    (pr : MProof) (x : ChannelId) :
    chanRankOf st x ≤ chanRankOf ((timeoutOnClose st p n pr).state) x := by
  unfold timeoutOnClose
  repeat' split
  all_goals try exact Nat.le_refl _
  all_goals show rankL st.channels x ≤ _
  all_goals apply rankL_setA_le
  all_goals unfold rankL
  all_goals simp_all [ChanState.rank]

/-! ## Client-record lemmas: heights never decrease, freezes never lift -/

theorem updateClient_clients_mono (st : State) (cid : ClientId) (h : Header)
    (cid' : ClientId) (cl : ClientRecord) (hcl : getA st.clients cid' = some cl) :
    ∃ cl', getA ((updateClient st cid h).state).clients cid' = some cl' ∧
      hle cl.latestHeight cl'.latestHeight = true ∧
      (cl.frozen = true → cl'.frozen = true) := by
  unfold updateClient
  cases heq : getA st.clients cid with
  | none =>
    simp only [heq]
    exact ⟨cl, hcl, hle_of_refl _, fun hf => hf⟩
  | some cl0 =>
    simp only [heq]
    repeat' split
    all_goals try exact ⟨cl, hcl, hle_of_refl _, fun hf => hf⟩
    by_cases hx : cid' = cid
    · have hcc : cl = cl0 := by
        rw [hx] at hcl
        rw [hcl] at heq
        exact Option.some.inj heq
      subst hcc
      refine ⟨⟨hmax cl.latestHeight h.height, cl.frozen,
        setA cl.consensusStates h.height h.consensusState⟩, ?_, ?_, ?_⟩
      · show getA (setA st.clients cid _) cid' = some _
        rw [getA_setA, if_pos hx]
      · exact hle_hmax_left _ _
      · intro hf
        exact hf
    · refine ⟨cl, ?_, hle_of_refl _, fun hf => hf⟩
      show getA (setA st.clients cid _) cid' = some cl
      rw [getA_setA, if_neg hx]
      exact hcl

theorem submitMisbehaviour_clients_mono (st : State) (cid : ClientId)
    (ev : Misbehaviour) (cid' : ClientId) (cl : ClientRecord)
    (hcl : getA st.clients cid' = some cl) :
    ∃ cl', getA ((submitMisbehaviour st cid ev).state).clients cid' = some cl' ∧
      hle cl.latestHeight cl'.latestHeight = true ∧
      (cl.frozen = true → cl'.frozen = true) := by
  unfold submitMisbehaviour
  cases heq : getA st.clients cid with
  | none =>
    simp only [heq]
    exact ⟨cl, hcl, hle_of_refl _, fun hf => hf⟩
  | some cl0 =>
    simp only [heq]
    repeat' split
    all_goals try exact ⟨cl, hcl, hle_of_refl _, fun hf => hf⟩
    by_cases hx : cid' = cid
    · have hcc : cl = cl0 := by
        rw [hx] at hcl
        rw [hcl] at heq
        exact Option.some.inj heq
      subst hcc
      refine ⟨⟨cl.latestHeight, true, cl.consensusStates⟩, ?_, ?_, ?_⟩
      · show getA (setA st.clients cid _) cid' = some _
        rw [getA_setA, if_pos hx]
      · exact hle_of_refl _
      · intro hf
        rfl
    · refine ⟨cl, ?_, hle_of_refl _, fun hf => hf⟩
      show getA (setA st.clients cid _) cid' = some cl
      rw [getA_setA, if_neg hx]
      exact hcl

/-! ## Frozen-client lemmas -/

theorem frozenOf_some (st : State) (cid : ClientId) (hfr : frozenOf st cid = true) :
    ∃ cl, getA st.clients cid = some cl ∧ cl.frozen = true := by
  unfold frozenOf at hfr
  cases heq : getA st.clients cid with
  | none => rw [heq] at hfr; cases hfr
  | some cl => rw [heq] at hfr; exact ⟨cl, rfl, hfr⟩

theorem clientVia_some (st : State) (cid cid' : ClientId)
    (h : clientVia st cid = some cid') :
    cid' = cid ∧ ∃ cl, getA st.clients cid = some cl := by
  unfold clientVia at h
  cases heq : getA st.clients cid with
  | none => rw [heq] at h; cases h
  | some cl => rw [heq] at h; exact ⟨(Option.some.inj h).symm, cl, rfl⟩

theorem clientOfConn_some (st : State) (connId : ConnectionId) (cid : ClientId)
    (h : clientOfConn st connId = some cid) :
    ∃ conn, getA st.connections connId = some conn ∧ cid = conn.clientId := by
  unfold clientOfConn at h
  cases heq : getA st.connections connId with
  | none => rw [heq] at h; cases h
  | some conn =>
    rw [heq] at h
    exact ⟨conn, rfl, (clientVia_some st conn.clientId cid h).1⟩

theorem clientOfOpenConn_some (st : State) (connId : ConnectionId) (cid : ClientId)
    (h : clientOfOpenConn st connId = some cid) :
    ∃ conn, getA st.connections connId = some conn ∧ conn.state = .Open ∧
      cid = conn.clientId := by
  unfold clientOfOpenConn at h
  cases heq : getA st.connections connId with
  | none => rw [heq] at h; cases h
  | some conn =>
    simp only [heq] at h
    by_cases hop : conn.state = .Open
    · rw [if_pos hop] at h
      exact ⟨conn, rfl, hop, (clientVia_some st conn.clientId cid h).1⟩
    · rw [if_neg hop] at h; cases h

theorem verifyProofCS_frozen (st : State) (cid : ClientId) (pr : MProof)
    (hfr : frozenOf st cid = true) :
    verifyProofCS st cid pr = .error .ClientFrozen := by
  obtain ⟨cl, heq, hf⟩ := frozenOf_some st cid hfr
  unfold verifyProofCS
  simp [heq, hf]

theorem chanGate_frozen (st : State) (connId : ConnectionId) (cid : ClientId)
    (h : clientOfOpenConn st connId = some cid) (hfr : frozenOf st cid = true) :
    chanGate st connId = .error .ClientFrozen := by
  obtain ⟨conn, heq, hop, hc⟩ := clientOfOpenConn_some st connId cid h
  obtain ⟨cl, hcl, hf⟩ := frozenOf_some st cid hfr
  subst hc
  unfold chanGate
  simp [heq, hop, hcl, hf]

theorem step_frozen (st : State) (m : Msg) (cid : ClientId)
    (href : refClient st m = some cid) (hfr : frozenOf st cid = true) :
    (step st m).result = some Err.ClientFrozen := by
  obtain ⟨clf, hclf, hff⟩ := frozenOf_some st cid hfr
  cases m with
  | updateClient cid0 h =>
    simp only [refClient] at href
    obtain ⟨hc, _, _⟩ := clientVia_some st cid0 cid href
    subst hc
    simp only [step]
    unfold updateClient
    simp [hclf, hff]
  | submitMisbehaviour cid0 ev =>
    simp only [refClient] at href
    obtain ⟨hc, _, _⟩ := clientVia_some st cid0 cid href
    subst hc
    simp only [step]
    unfold submitMisbehaviour
    simp [hclf, hff]
  | connOpenInit connId cid0 cp vs d =>
    simp only [refClient] at href
    obtain ⟨hc, _, _⟩ := clientVia_some st cid0 cid href
    subst hc
    simp only [step]
    unfold connOpenInit
    simp [hclf, hff]
  | connOpenTry connId cid0 cp cpc vs d pr =>
    simp only [refClient] at href
    obtain ⟨hc, _, _⟩ := clientVia_some st cid0 cid href
    subst hc
    simp only [step]
    unfold connOpenTry
    simp [verifyProofCS_frozen st cid pr hfr]
  | connOpenAck connId cpConnId v pr =>
    simp only [refClient] at href
    cases heq : getA st.connections connId with
    | none => rw [heq] at href; cases href
    | some conn =>
      simp only [heq] at href
      by_cases hst : conn.state = ConnState.Init
      · rw [if_pos hst] at href
        obtain ⟨hc, _, _⟩ := clientVia_some st conn.clientId cid href
        subst hc
        simp only [step]
        unfold connOpenAck
        simp [heq, hst, verifyProofCS_frozen st conn.clientId pr hfr]
      · rw [if_neg hst] at href; cases href
  | connOpenConfirm connId pr =>
    simp only [refClient] at href
    cases heq : getA st.connections connId with
    | none => rw [heq] at href; cases href
    | some conn =>
      simp only [heq] at href
      by_cases hst : conn.state = ConnState.Init ∨ conn.state = ConnState.TryOpen
      · rw [if_pos hst] at href
        obtain ⟨hc, _, _⟩ := clientVia_some st conn.clientId cid href
        subst hc
        simp only [step]
        unfold connOpenConfirm
        simp [heq, hst, verifyProofCS_frozen st conn.clientId pr hfr]
      · rw [if_neg hst] at href; cases href
  | chanOpenInit chanId portId mid connId ord v cpp macc =>
    simp only [refClient] at href
    by_cases hcap : getA st.caps portId = some mid
    · rw [if_pos hcap] at href
      simp only [step]
      unfold chanOpenInit
      simp [hcap, chanGate_frozen st connId cid href hfr]
    · rw [if_neg hcap] at href; cases href
  | chanOpenTry chanId portId mid connId ord v cpp cpc macc pr =>
    simp only [refClient] at href
    by_cases hcap : getA st.caps portId = some mid
    · rw [if_pos hcap] at href
      simp only [step]
      unfold chanOpenTry
      simp [hcap, chanGate_frozen st connId cid href hfr]
    · rw [if_neg hcap] at href; cases href
  | chanOpenAck chanId mid cpc macc pr =>
    simp only [refClient] at href
    cases heqch : getA st.channels chanId with
    | none => rw [heqch] at href; cases href
    | some ch =>
      simp only [heqch] at href
      by_cases hcs : getA st.caps ch.portId = some mid ∧ ch.state = ChanState.Init
      · rw [if_pos hcs] at href
        simp only [step]
        unfold chanOpenAck
        simp [heqch, hcs.1, hcs.2, chanGate_frozen st ch.connectionId cid href hfr]
      · rw [if_neg hcs] at href; cases href
  | chanOpenConfirm chanId mid pr =>
    simp only [refClient] at href
    cases heqch : getA st.channels chanId with
    | none => rw [heqch] at href; cases href
    | some ch =>
      simp only [heqch] at href
      by_cases hcs : getA st.caps ch.portId = some mid ∧ ch.state = ChanState.TryOpen
      · rw [if_pos hcs] at href
        simp only [step]
        unfold chanOpenConfirm
        simp [heqch, hcs.1, hcs.2, chanGate_frozen st ch.connectionId cid href hfr]
      · rw [if_neg hcs] at href; cases href
  | chanCloseInit chanId mid =>
    simp only [refClient] at href
    cases heqch : getA st.channels chanId with
    | none => rw [heqch] at href; cases href
    | some ch =>
      simp only [heqch] at href
      by_cases hcs : getA st.caps ch.portId = some mid ∧ ch.state = ChanState.Open
      · rw [if_pos hcs] at href
        simp only [step]
        unfold chanCloseInit
        simp [heqch, hcs.1, hcs.2, chanGate_frozen st ch.connectionId cid href hfr]
      · rw [if_neg hcs] at href; cases href
  | chanCloseConfirm chanId mid pr =>
    simp only [refClient] at href
    cases heqch : getA st.channels chanId with
    | none => rw [heqch] at href; cases href
    | some ch =>
      simp only [heqch] at href
      by_cases hcs : getA st.caps ch.portId = some mid ∧ ch.state = ChanState.Open
      · rw [if_pos hcs] at href
        simp only [step]
        unfold chanCloseConfirm
        simp [heqch, hcs.1, hcs.2, chanGate_frozen st ch.connectionId cid href hfr]
      · rw [if_neg hcs] at href; cases href
  | sendPacket p =>
    simp only [refClient] at href
    cases heqch : getA st.channels p.sourceChannel with
    | none => rw [heqch] at href; cases href
    | some ch =>
      simp only [heqch] at href
      by_cases hop : ch.state = ChanState.Open
      · rw [if_pos hop] at href
        obtain ⟨conn, heqc, hc⟩ := clientOfConn_some st ch.connectionId cid href
        subst hc
        simp only [step]
        unfold sendPacket
        simp [heqch, hop, heqc, hclf, hff]
      · rw [if_neg hop] at href; cases href
  | recvPacket p pr a =>
    simp only [refClient] at href
    cases heqch : getA st.channels p.destChannel with
    | none => rw [heqch] at href; cases href
    | some ch =>
      simp only [heqch] at href
      by_cases hop : ch.state = ChanState.Open
      · rw [if_pos hop] at href
        obtain ⟨conn, heqc, hc⟩ := clientOfConn_some st ch.connectionId cid href
        subst hc
        simp only [step]
        unfold recvPacket
        simp [heqch, hop, heqc, verifyProofCS_frozen st conn.clientId pr hfr]
      · rw [if_neg hop] at href; cases href
  | ackPacket p pr =>
    simp only [refClient] at href
    cases heqch : getA st.channels p.sourceChannel with
    | none => rw [heqch] at href; cases href
    | some ch =>
      simp only [heqch] at href
      by_cases hop : ch.state = ChanState.Open
      · rw [if_pos hop] at href
        obtain ⟨conn, heqc, hc⟩ := clientOfConn_some st ch.connectionId cid href
        subst hc
        simp only [step]
        unfold ackPacket
        simp [heqch, hop, heqc, verifyProofCS_frozen st conn.clientId pr hfr]
      · rw [if_neg hop] at href; cases href
  | timeoutPacket p n pr =>
    simp only [refClient] at href
    cases heqch : getA st.channels p.sourceChannel with
    | none => rw [heqch] at href; cases href
    | some ch =>
      simp only [heqch] at href
      by_cases hop : ch.state = ChanState.Open
      · rw [if_pos hop] at href
        obtain ⟨conn, heqc, hc⟩ := clientOfConn_some st ch.connectionId cid href
        subst hc
        simp only [step]
        unfold timeoutPacket
        simp [heqch, hop, heqc, verifyProofCS_frozen st conn.clientId pr hfr]
      · rw [if_neg hop] at href; cases href
  | timeoutOnClose p n pr =>
    simp only [refClient] at href
    cases heqch : getA st.channels p.sourceChannel with
    | none => rw [heqch] at href; cases href
    | some ch =>
      simp only [heqch] at href
      by_cases hop : ch.state = ChanState.Open
      · rw [if_pos hop] at href
        obtain ⟨conn, heqc, hc⟩ := clientOfConn_some st ch.connectionId cid href
        subst hc
        simp only [step]
        unfold timeoutOnClose
        simp [heqch, hop, heqc, verifyProofCS_frozen st conn.clientId pr hfr]
      · rw [if_neg hop] at href; cases href

/-! ## Step-level monotonicity -/

theorem step_clients_mono (st : State) (m : Msg) (cid : ClientId) (cl : ClientRecord)
    (hcl : getA st.clients cid = some cl) :
    ∃ cl', getA ((step st m).state).clients cid = some cl' ∧
      hle cl.latestHeight cl'.latestHeight = true ∧
      (cl.frozen = true → cl'.frozen = true) := by
  cases m with
  | updateClient cid0 h => exact updateClient_clients_mono st cid0 h cid cl hcl
  | submitMisbehaviour cid0 ev => exact submitMisbehaviour_clients_mono st cid0 ev cid cl hcl
  | connOpenInit a b c d e =>
    refine ⟨cl, ?_, hle_of_refl _, fun hf => hf⟩
    simp only [step]
    rw [(connOpenInit_frame st a b c d e).1]
    exact hcl
  | connOpenTry a b c d e f g =>
    refine ⟨cl, ?_, hle_of_refl _, fun hf => hf⟩
    simp only [step]
    rw [(connOpenTry_frame st a b c d e f g).1]
    exact hcl
  | connOpenAck a b c d =>
    refine ⟨cl, ?_, hle_of_refl _, fun hf => hf⟩
    simp only [step]
    rw [(connOpenAck_frame st a b c d).1]
    exact hcl
  | connOpenConfirm a b =>
    refine ⟨cl, ?_, hle_of_refl _, fun hf => hf⟩
    simp only [step]
    rw [(connOpenConfirm_frame st a b).1]
    exact hcl
  | chanOpenInit a b c d e f g h =>
    refine ⟨cl, ?_, hle_of_refl _, fun hf => hf⟩
    simp only [step]
    rw [(chanOpenInit_frame st a b c d e f g h).1]
    exact hcl
  | chanOpenTry a b c d e f g h i j =>
    refine ⟨cl, ?_, hle_of_refl _, fun hf => hf⟩
    simp only [step]
    rw [(chanOpenTry_frame st a b c d e f g h i j).1]
    exact hcl
  | chanOpenAck a b c d e =>
    refine ⟨cl, ?_, hle_of_refl _, fun hf => hf⟩
    simp only [step]
    rw [(chanOpenAck_frame st a b c d e).1]
    exact hcl
  | chanOpenConfirm a b c =>
    refine ⟨cl, ?_, hle_of_refl _, fun hf => hf⟩
    simp only [step]
    rw [(chanOpenConfirm_frame st a b c).1]
    exact hcl
  | chanCloseInit a b =>
    refine ⟨cl, ?_, hle_of_refl _, fun hf => hf⟩
    simp only [step]
    rw [(chanCloseInit_frame st a b).1]
    exact hcl
  | chanCloseConfirm a b c =>
    refine ⟨cl, ?_, hle_of_refl _, fun hf => hf⟩
    simp only [step]
    rw [(chanCloseConfirm_frame st a b c).1]
    exact hcl
  | sendPacket p =>
    refine ⟨cl, ?_, hle_of_refl _, fun hf => hf⟩
    simp only [step]
    rw [(sendPacket_frame st p).1]
    exact hcl
  | recvPacket p pr a =>
    refine ⟨cl, ?_, hle_of_refl _, fun hf => hf⟩
    simp only [step]
    rw [(recvPacket_frame st p pr a).1]
    exact hcl
  | ackPacket p pr =>
    refine ⟨cl, ?_, hle_of_refl _, fun hf => hf⟩
    simp only [step]
    rw [(ackPacket_frame st p pr).1]
    exact hcl
  | timeoutPacket p n pr =>
    refine ⟨cl, ?_, hle_of_refl _, fun hf => hf⟩
    simp only [step]
    rw [(timeoutPacket_frame st p n pr).1]
    exact hcl
  | timeoutOnClose p n pr =>
    refine ⟨cl, ?_, hle_of_refl _, fun hf => hf⟩
    simp only [step]
    rw [(timeoutOnClose_frame st p n pr).1]
    exact hcl

theorem step_conn_mono (st : State) (m : Msg) (x : ConnectionId) :
    connRankOf st x ≤ connRankOf ((step st m).state) x := by
  cases m with
  | updateClient a b =>
    exact Nat.le_of_eq (connRankOf_congr st _ (updateClient_frame st a b).1 x).symm
  | submitMisbehaviour a b =>
    exact Nat.le_of_eq (connRankOf_congr st _ (submitMisbehaviour_frame st a b).1 x).symm
  | connOpenInit a b c d e => exact connOpenInit_conn_mono st a b c d e x
  | connOpenTry a b c d e f g => exact connOpenTry_conn_mono st a b c d e f g x
  | connOpenAck a b c d => exact connOpenAck_conn_mono st a b c d x
  | connOpenConfirm a b => exact connOpenConfirm_conn_mono st a b x
  | chanOpenInit a b c d e f g h =>
    exact Nat.le_of_eq (connRankOf_congr st _ (chanOpenInit_frame st a b c d e f g h).2.1 x).symm
  | chanOpenTry a b c d e f g h i j =>
    exact Nat.le_of_eq (connRankOf_congr st _ (chanOpenTry_frame st a b c d e f g h i j).2.1 x).symm
  | chanOpenAck a b c d e =>
    exact Nat.le_of_eq (connRankOf_congr st _ (chanOpenAck_frame st a b c d e).2.1 x).symm
  | chanOpenConfirm a b c =>
    exact Nat.le_of_eq (connRankOf_congr st _ (chanOpenConfirm_frame st a b c).2.1 x).symm
  | chanCloseInit a b =>
    exact Nat.le_of_eq (connRankOf_congr st _ (chanCloseInit_frame st a b).2.1 x).symm
  | chanCloseConfirm a b c =>
    exact Nat.le_of_eq (connRankOf_congr st _ (chanCloseConfirm_frame st a b c).2.1 x).symm
  | sendPacket p =>
    exact Nat.le_of_eq (connRankOf_congr st _ (sendPacket_frame st p).2.1 x).symm
  | recvPacket p pr a =>
    exact Nat.le_of_eq (connRankOf_congr st _ (recvPacket_frame st p pr a).2.1 x).symm
  | ackPacket p pr =>
    exact Nat.le_of_eq (connRankOf_congr st _ (ackPacket_frame st p pr).2.1 x).symm
  | timeoutPacket p n pr =>
    exact Nat.le_of_eq (connRankOf_congr st _ (timeoutPacket_frame st p n pr).2.1 x).symm
  | timeoutOnClose p n pr =>
    exact Nat.le_of_eq (connRankOf_congr st _ (timeoutOnClose_frame st p n pr).2.1 x).symm

theorem step_chan_mono (st : State) (m : Msg) (x : ChannelId) :
    chanRankOf st x ≤ chanRankOf ((step st m).state) x := by
  cases m with
  | updateClient a b =>
    exact Nat.le_of_eq (chanRankOf_congr st _ (updateClient_frame st a b).2.1 x).symm
  | submitMisbehaviour a b =>
    exact Nat.le_of_eq (chanRankOf_congr st _ (submitMisbehaviour_frame st a b).2.1 x).symm
  | connOpenInit a b c d e =>
    exact Nat.le_of_eq (chanRankOf_congr st _ (connOpenInit_frame st a b c d e).2.1 x).symm
  | connOpenTry a b c d e f g =>
    exact Nat.le_of_eq (chanRankOf_congr st _ (connOpenTry_frame st a b c d e f g).2.1 x).symm
  | connOpenAck a b c d =>
    exact Nat.le_of_eq (chanRankOf_congr st _ (connOpenAck_frame st a b c d).2.1 x).symm
  | connOpenConfirm a b =>
    exact Nat.le_of_eq (chanRankOf_congr st _ (connOpenConfirm_frame st a b).2.1 x).symm
  | chanOpenInit a b c d e f g h => exact chanOpenInit_chan_mono st a b c d e f g h x
  | chanOpenTry a b c d e f g h i j => exact chanOpenTry_chan_mono st a b c d e f g h i j x
  | chanOpenAck a b c d e => exact chanOpenAck_chan_mono st a b c d e x
  | chanOpenConfirm a b c => exact chanOpenConfirm_chan_mono st a b c x
  | chanCloseInit a b => exact chanCloseInit_chan_mono st a b x
  | chanCloseConfirm a b c => exact chanCloseConfirm_chan_mono st a b c x
  | sendPacket p =>
    exact Nat.le_of_eq (chanRankOf_congr st _ (sendPacket_frame st p).2.2.1 x).symm
  | recvPacket p pr a =>
    exact Nat.le_of_eq (chanRankOf_congr st _ (recvPacket_frame st p pr a).2.2.1 x).symm
  | ackPacket p pr =>
    exact Nat.le_of_eq (chanRankOf_congr st _ (ackPacket_frame st p pr).2.2.1 x).symm
  | timeoutPacket p n pr => exact timeoutPacket_chan_mono st p n pr x
  | timeoutOnClose p n pr => exact timeoutOnClose_chan_mono st p n pr x

theorem chanRankOf_of_closed (st : State) (x : ChannelId)
    (h : chanStateOf st x = some ChanState.Closed) : chanRankOf st x = 4 := by
  unfold chanStateOf at h
  unfold chanRankOf
  cases heq : getA st.channels x with
  | none => rw [heq] at h; cases h
  | some c =>
    simp only [heq, Option.map] at h
    simp only [heq]
    have hc : c.state = ChanState.Closed := by simpa using h
    rw [hc]
    rfl

theorem chanStateOf_of_rank_four (st : State) (x : ChannelId)
    (h : 4 ≤ chanRankOf st x) : chanStateOf st x = some ChanState.Closed := by
  unfold chanRankOf at h
  unfold chanStateOf
  cases heq : getA st.channels x with
  | none => rw [heq] at h; cases h
  | some c =>
    simp only [heq] at h
    simp only [heq, Option.map]
    cases hc : c.state <;> rw [hc] at h <;> simp_all [ChanState.rank]

/-! ## Handshake steps succeed only from their legal source states -/

theorem connOpenInit_source (st : State) (connId : ConnectionId) (cid cp : ClientId)
    (vs : List Nat) (d : Nat)
    (h : (connOpenInit st connId cid cp vs d).result = none) :
    getA st.connections connId = none := by
  unfold connOpenInit at h
  repeat' split at h
  all_goals simp_all

theorem connOpenTry_source (st : State) (connId : ConnectionId) (cid cp : ClientId)
    (cpc : ConnectionId) (vs : List Nat) (d : Nat) (pr : MProof)
    (h : (connOpenTry st connId cid cp cpc vs d pr).result = none) :
    getA st.connections connId = none ∨ connStateOf st connId = some ConnState.Init := by
  unfold connOpenTry at h
  repeat' split at h
  all_goals simp_all [connStateOf]

theorem connOpenAck_source (st : State) (connId cpc : ConnectionId) (v : Nat)
    (pr : MProof) (h : (connOpenAck st connId cpc v pr).result = none) :
    connStateOf st connId = some ConnState.Init := by
  unfold connOpenAck at h
  repeat' split at h
  all_goals simp_all [connStateOf]

theorem connOpenConfirm_source (st : State) (connId : ConnectionId) (pr : MProof)
    (h : (connOpenConfirm st connId pr).result = none) :
    connStateOf st connId = some ConnState.Init ∨
    connStateOf st connId = some ConnState.TryOpen := by
  unfold connOpenConfirm at h
  repeat' split at h
  all_goals simp_all [connStateOf]

theorem chanOpenInit_source (st : State) (chanId : ChannelId) (portId : PortId)
    (mid : Nat) (connId : ConnectionId) (ord : ChanOrdering) (v : Nat)
    (cpp : PortId) (macc : Bool)
    (h : (chanOpenInit st chanId portId mid connId ord v cpp macc).result = none) :
    getA st.channels chanId = none := by
  unfold chanOpenInit at h
  repeat' split at h
  all_goals simp_all

theorem chanOpenTry_source (st : State) (chanId : ChannelId) (portId : PortId)
    (mid : Nat) (connId : ConnectionId) (ord : ChanOrdering) (v : Nat)
    (cpp : PortId) (cpc : ChannelId) (macc : Bool) (pr : MProof)
    (h : (chanOpenTry st chanId portId mid connId ord v cpp cpc macc pr).result = none) :
    getA st.channels chanId = none ∨ chanStateOf st chanId = some ChanState.Init := by
  unfold chanOpenTry at h
  repeat' split at h
  all_goals simp_all [chanStateOf]

theorem chanOpenAck_source (st : State) (chanId : ChannelId) (mid : Nat)
    (cpc : ChannelId) (macc : Bool) (pr : MProof)
    (h : (chanOpenAck st chanId mid cpc macc pr).result = none) :
    chanStateOf st chanId = some ChanState.Init := by
  unfold chanOpenAck at h
  repeat' split at h
  all_goals simp_all [chanStateOf]

theorem chanOpenConfirm_source (st : State) (chanId : ChannelId) (mid : Nat)
    (pr : MProof) (h : (chanOpenConfirm st chanId mid pr).result = none) :
    chanStateOf st chanId = some ChanState.TryOpen := by
  unfold chanOpenConfirm at h
  repeat' split at h
  all_goals simp_all [chanStateOf]

theorem chanCloseInit_source (st : State) (chanId : ChannelId) (mid : Nat)
    (h : (chanCloseInit st chanId mid).result = none) :
    chanStateOf st chanId = some ChanState.Open := by
  unfold chanCloseInit at h
  repeat' split at h
  all_goals simp_all [chanStateOf]

theorem chanCloseConfirm_source (st : State) (chanId : ChannelId) (mid : Nat)
    (pr : MProof) (h : (chanCloseConfirm st chanId mid pr).result = none) :
    chanStateOf st chanId = some ChanState.Open := by
  unfold chanCloseConfirm at h
  repeat' split at h
  all_goals simp_all [chanStateOf]

theorem step_source (st : State) (m : Msg) (h : (step st m).result = none) :
    handshakeSourceOk st m := by
  cases m with
  | updateClient a b => trivial
  | submitMisbehaviour a b => trivial
  | connOpenInit a b c d e => exact connOpenInit_source st a b c d e h
  | connOpenTry a b c d e f g => exact connOpenTry_source st a b c d e f g h
  | connOpenAck a b c d => exact connOpenAck_source st a b c d h
  | connOpenConfirm a b => exact connOpenConfirm_source st a b h
  | chanOpenInit a b c d e f g i => exact chanOpenInit_source st a b c d e f g i h
  | chanOpenTry a b c d e f g i j k => exact chanOpenTry_source st a b c d e f g i j k h
  | chanOpenAck a b c d e => exact chanOpenAck_source st a b c d e h
  | chanOpenConfirm a b c => exact chanOpenConfirm_source st a b c h
  | chanCloseInit a b => exact chanCloseInit_source st a b h
  | chanCloseConfirm a b c => exact chanCloseConfirm_source st a b c h
  | sendPacket p => trivial
  | recvPacket p pr a => trivial
  | ackPacket p pr => trivial
  | timeoutPacket p n pr => trivial
  | timeoutOnClose p n pr => trivial

/-! ## Commitment-lifecycle lemmas -/

theorem ackPacket_run (st : State) (p : Packet) (pr : MProof) :
    (ackPacket st p pr).result = none →
    getA st.commitments (p.sourceChannel, p.sequence) = some (commitmentOf p) ∧
    ((ackPacket st p pr).state).commitments =
      delA st.commitments (p.sourceChannel, p.sequence) := by
  unfold ackPacket
  repeat' split
  all_goals intro h
  all_goals simp_all

theorem timeoutPacket_run (st : State) (p : Packet) (n : Sequence) (pr : MProof) :
    (timeoutPacket st p n pr).result = none →
    getA st.commitments (p.sourceChannel, p.sequence) = some (commitmentOf p) ∧
    ((timeoutPacket st p n pr).state).commitments =
      delA st.commitments (p.sourceChannel, p.sequence) := by
  unfold timeoutPacket
  repeat' split
  all_goals intro h
  all_goals simp_all

theorem ackPacket_notfound (st : State) (p : Packet) (pr : MProof)
    (ch : ChannelEnd) (conn : ConnectionEnd) (cs : ConsensusState)
    (hch : getA st.channels p.sourceChannel = some ch)
    (hop : ch.state = ChanState.Open)
    (hconn : getA st.connections ch.connectionId = some conn)
    (hver : verifyProofCS st conn.clientId pr = .ok cs)
    (habs : getA st.commitments (p.sourceChannel, p.sequence) = none) :
    ackPacket st p pr = ⟨some Err.CommitmentNotFound, st⟩ := by
  unfold ackPacket
  simp [hch, hop, hconn, hver, habs]

theorem timeoutPacket_notfound (st : State) (p : Packet) (n : Sequence) (pr : MProof)
    (ch : ChannelEnd) (conn : ConnectionEnd) (cs : ConsensusState)
    (hch : getA st.channels p.sourceChannel = some ch)
    (hop : ch.state = ChanState.Open)
    (hconn : getA st.connections ch.connectionId = some conn)
    (hver : verifyProofCS st conn.clientId pr = .ok cs)
    (hel : timeoutElapsedAt p pr.height cs.timestamp = true)
    (hrec : (decide (ch.ordering = ChanOrdering.Ordered) && decide (n > p.sequence)) = false)
    (habs : getA st.commitments (p.sourceChannel, p.sequence) = none) :
    timeoutPacket st p n pr = ⟨some Err.CommitmentNotFound, st⟩ := by
  unfold timeoutPacket
  simp [hch, hop, hconn, hver, hel, hrec, habs]

theorem sendPacket_absent_preserved (st : State) (p : Packet) (c : ChannelId)
    (s : Sequence) (habs : getA st.commitments (c, s) = none)
    (hlt : s < nextSendOf st c) :
    getA ((sendPacket st p).state).commitments (c, s) = none ∧
    s < nextSendOf ((sendPacket st p).state) c := by
  unfold sendPacket
  repeat' split
  all_goals try exact ⟨habs, hlt⟩
  constructor
  · show getA (setA st.commitments (p.sourceChannel, p.sequence) (commitmentOf p)) (c, s) = none
    rw [getA_setA]
    split
    · rename_i hkey
      have hc : c = p.sourceChannel := congrArg Prod.fst hkey
      have hs : s = p.sequence := congrArg Prod.snd hkey
      exfalso
      have hseq' : p.sequence = nextSendOf st p.sourceChannel := by
        have hh := ‹¬(!decide (p.sequence = nextSendOf st p.sourceChannel)) = true›
        simpa using hh
      rw [hc, hs, hseq'] at hlt
      exact Nat.lt_irrefl _ hlt
    · exact habs
  · show s < nextSendOf { st with
      commitments := setA st.commitments (p.sourceChannel, p.sequence) (commitmentOf p),
      nextSendSeq := setA st.nextSendSeq p.sourceChannel (nextSendOf st p.sourceChannel + 1) } c
    unfold nextSendOf
    simp only [getA_setA]
    by_cases hc : c = p.sourceChannel
    · rw [if_pos hc]
      have : nextSendOf st c = nextSendOf st p.sourceChannel := by rw [hc]
      rw [this] at hlt
      simpa using Nat.lt_succ_of_lt hlt
    · rw [if_neg hc]
      exact hlt

theorem step_absent_preserved (st : State) (m : Msg) (c : ChannelId) (s : Sequence)
    (habs : getA st.commitments (c, s) = none) (hlt : s < nextSendOf st c) :
    getA ((step st m).state).commitments (c, s) = none ∧
    s < nextSendOf ((step st m).state) c := by
  have frame : ∀ st' : State, st'.commitments = st.commitments →
      st'.nextSendSeq = st.nextSendSeq →
      getA st'.commitments (c, s) = none ∧ s < nextSendOf st' c := by
    intro st' h1 h2
    refine ⟨by rw [h1]; exact habs, ?_⟩
    unfold nextSendOf
    rw [h2]
    exact hlt
  have hdel : ∀ st' : State,
      st'.commitments = delA st.commitments (c, s) ∨
        (∃ k, k ≠ (c, s) ∧ st'.commitments = delA st.commitments k) →
      st'.nextSendSeq = st.nextSendSeq →
      getA st'.commitments (c, s) = none ∧ s < nextSendOf st' c := by
    intro st' h1 h2
    refine ⟨?_, ?_⟩
    · rcases h1 with h1 | ⟨k, hk, h1⟩
      · rw [h1]; exact getA_delA_self _ _
      · rw [h1]
        rw [getA_delA_ne _ _ _ (fun hh => hk hh.symm)]
        exact habs
    · unfold nextSendOf
      rw [h2]
      exact hlt
  cases m with
  | updateClient a b =>
    exact frame _ (updateClient_frame st a b).2.2.1 (updateClient_frame st a b).2.2.2.1
  | submitMisbehaviour a b =>
    exact frame _ (submitMisbehaviour_frame st a b).2.2.1 (submitMisbehaviour_frame st a b).2.2.2.1
  | connOpenInit a b c' d e =>
    exact frame _ (connOpenInit_frame st a b c' d e).2.2.1 (connOpenInit_frame st a b c' d e).2.2.2.1
  | connOpenTry a b c' d e f g =>
    exact frame _ (connOpenTry_frame st a b c' d e f g).2.2.1
      (connOpenTry_frame st a b c' d e f g).2.2.2.1
  | connOpenAck a b c' d =>
    exact frame _ (connOpenAck_frame st a b c' d).2.2.1 (connOpenAck_frame st a b c' d).2.2.2.1
  | connOpenConfirm a b =>
    exact frame _ (connOpenConfirm_frame st a b).2.2.1 (connOpenConfirm_frame st a b).2.2.2.1
  | chanOpenInit a b c' d e f g h =>
    exact frame _ (chanOpenInit_frame st a b c' d e f g h).2.2.1
      (chanOpenInit_frame st a b c' d e f g h).2.2.2.1
  | chanOpenTry a b c' d e f g h i j =>
    exact frame _ (chanOpenTry_frame st a b c' d e f g h i j).2.2.1
      (chanOpenTry_frame st a b c' d e f g h i j).2.2.2.1
  | chanOpenAck a b c' d e =>
    exact frame _ (chanOpenAck_frame st a b c' d e).2.2.1 (chanOpenAck_frame st a b c' d e).2.2.2.1
  | chanOpenConfirm a b c' =>
    exact frame _ (chanOpenConfirm_frame st a b c').2.2.1 (chanOpenConfirm_frame st a b c').2.2.2.1
  | chanCloseInit a b =>
    exact frame _ (chanCloseInit_frame st a b).2.2.1 (chanCloseInit_frame st a b).2.2.2.1
  | chanCloseConfirm a b c' =>
    exact frame _ (chanCloseConfirm_frame st a b c').2.2.1 (chanCloseConfirm_frame st a b c').2.2.2.1
  | sendPacket p => exact sendPacket_absent_preserved st p c s habs hlt
  | recvPacket p pr a =>
    exact frame _ (recvPacket_frame st p pr a).2.2.2.1 (recvPacket_frame st p pr a).2.2.2.2
  | ackPacket p pr =>
    simp only [step]
    cases hres : (ackPacket st p pr).result with
    | some e =>
      rcases ackPacket_atomic st p pr with h | h
      · rw [hres] at h; cases h
      · exact frame _ (by rw [h]) (by rw [h])
    | none =>
      have hrun := ackPacket_run st p pr hres
      refine hdel _ ?_ (ackPacket_frame st p pr).2.2.2.1
      by_cases hk : (p.sourceChannel, p.sequence) = (c, s)
      · left; rw [hrun.2, hk]
      · right; exact ⟨_, hk, hrun.2⟩

  | timeoutPacket p n pr =>
    simp only [step]
    cases hres : (timeoutPacket st p n pr).result with
    | some e =>
      rcases timeoutPacket_atomic st p n pr with h | h
      · rw [hres] at h; cases h
      · exact frame _ (by rw [h]) (by rw [h])
    | none =>
      have hrun := timeoutPacket_run st p n pr hres
      refine hdel _ ?_ (timeoutPacket_frame st p n pr).2.2.1
      by_cases hk : (p.sourceChannel, p.sequence) = (c, s)
      · left; rw [hrun.2, hk]
      · right; exact ⟨_, hk, hrun.2⟩
  | timeoutOnClose p n pr =>
    simp only [step]
    cases hres : (timeoutOnClose st p n pr).result with
    | some e =>
      rcases timeoutOnClose_atomic st p n pr with h | h
      · rw [hres] at h; cases h
      · exact frame _ (by rw [h]) (by rw [h])
    | none =>
      have hcm : ((timeoutOnClose st p n pr).state).commitments =
          delA st.commitments (p.sourceChannel, p.sequence) := by
        revert hres
        unfold timeoutOnClose
        repeat' split
        all_goals intro hres
        all_goals simp_all
      refine hdel _ ?_ (timeoutOnClose_frame st p n pr).2.2.1
      by_cases hk : (p.sourceChannel, p.sequence) = (c, s)
      · left; rw [hcm, hk]
      · right; exact ⟨_, hk, hcm⟩

/-! ## Proof-gate characterisation -/

theorem verifyProofCS_height (st : State) (cid : ClientId) (pr : MProof)
    (cl : ClientRecord) (hcl : getA st.clients cid = some cl)
    (hfrz : cl.frozen = false) (hh : hle pr.height cl.latestHeight = false) :
    verifyProofCS st cid pr = .error Err.ProofVerificationFailed := by
  unfold verifyProofCS
  simp [hcl, hfrz, hh]

theorem verifyProofCS_ok (st : State) (cid : ClientId) (pr : MProof)
    (cs : ConsensusState) (cl : ClientRecord)
    (hver : verifyProofCS st cid pr = .ok cs)
    (hcl : getA st.clients cid = some cl) :
    hle pr.height cl.latestHeight = true ∧
    getA cl.consensusStates pr.height = some cs ∧ pr.root = cs.root := by
  unfold verifyProofCS at hver
  simp only [hcl] at hver
  by_cases hf : cl.frozen = true
  · rw [if_pos hf] at hver
    cases hver
  · rw [if_neg hf] at hver
    by_cases hh : (!(hle pr.height cl.latestHeight)) = true
    · rw [if_pos hh] at hver
      cases hver
    · rw [if_neg hh] at hver
      have hle' : hle pr.height cl.latestHeight = true := by
        simpa using hh
      cases hcs : getA cl.consensusStates pr.height with
      | none =>
        rw [hcs] at hver
        cases hver
      | some cs0 =>
        simp only [hcs] at hver
        by_cases hok : (pr.ok && decide (pr.root = cs0.root)) = true
        · rw [if_pos hok] at hver
          have hcseq : cs0 = cs := by
            cases hver
            rfl
          subst hcseq
          refine ⟨hle', rfl, ?_⟩
          have := (Bool.and_eq_true _ _).mp hok
          exact of_decide_eq_true this.2
        · rw [if_neg hok] at hver
          cases hver

/-! ## The claims -/

/-- C4: every proof-gated operation verifies only at a height less than or
equal to the referenced client's latest tracked height, against the
`ConsensusState` root stored at exactly that height; a proof whose height
exceeds the tracked height fails with `ProofVerificationFailed`, also
when submitted through `RecvPacket`. -/
theorem proof_verification_height_gated (st : State) (cid : ClientId)
    (pr : MProof) (cl : ClientRecord) (p : Packet) (ch : ChannelEnd)
    (conn : ConnectionEnd) (a : Nat) :
    (getA st.clients cid = some cl → cl.frozen = false →
      hle pr.height cl.latestHeight = false →
      verifyProofCS st cid pr = .error Err.ProofVerificationFailed) ∧
    (∀ cs, verifyProofCS st cid pr = .ok cs → getA st.clients cid = some cl →
      hle pr.height cl.latestHeight = true ∧
      getA cl.consensusStates pr.height = some cs ∧ pr.root = cs.root) ∧
    (getA st.channels p.destChannel = some ch → ch.state = ChanState.Open →
      getA st.connections ch.connectionId = some conn →
      getA st.clients conn.clientId = some cl → cl.frozen = false →
      hle pr.height cl.latestHeight = false →
      recvPacket st p pr a = ⟨some Err.ProofVerificationFailed, st⟩) := by
  refine ⟨fun hcl hfrz hh => verifyProofCS_height st cid pr cl hcl hfrz hh,
    fun cs hver hcl => verifyProofCS_ok st cid pr cs cl hver hcl,
    fun hch hop hconn hcl hfrz hh => ?_⟩
  unfold recvPacket
  simp [hch, hop, hconn, verifyProofCS_height st conn.clientId pr cl hcl hfrz hh]

/-- C7: the four packet operations are atomic — whenever one of them
returns an error, the store is left exactly as it was. -/
theorem packet_ops_atomic (st : State) (m : Msg) (e : Err)
    (hm : isPacketOp m) (hres : (step st m).result = some e) :
    (step st m).state = st := by
  cases m with
  | sendPacket p =>
    rcases sendPacket_atomic st p with h | h
    · rw [show step st (Msg.sendPacket p) = sendPacket st p from rfl] at hres
      rw [h] at hres
      cases hres
    · exact h
  | recvPacket p pr a =>
    rcases recvPacket_atomic st p pr a with h | h
    · rw [show step st (Msg.recvPacket p pr a) = recvPacket st p pr a from rfl] at hres
      rw [h] at hres
      cases hres
    · exact h
  | ackPacket p pr =>
    rcases ackPacket_atomic st p pr with h | h
    · rw [show step st (Msg.ackPacket p pr) = ackPacket st p pr from rfl] at hres
      rw [h] at hres
      cases hres
    · exact h
  | timeoutPacket p n pr =>
    rcases timeoutPacket_atomic st p n pr with h | h
    · rw [show step st (Msg.timeoutPacket p n pr) = timeoutPacket st p n pr from rfl] at hres
      rw [h] at hres
      cases hres
    · exact h
  | updateClient a b => cases hm
  | submitMisbehaviour a b => cases hm
  | connOpenInit a b c d e => cases hm
  | connOpenTry a b c d e f g => cases hm
  | connOpenAck a b c d => cases hm
  | connOpenConfirm a b => cases hm
  | chanOpenInit a b c d e f g h => cases hm
  | chanOpenTry a b c d e f g h i j => cases hm
  | chanOpenAck a b c d e => cases hm
  | chanOpenConfirm a b c => cases hm
  | chanCloseInit a b => cases hm
  | chanCloseConfirm a b c => cases hm
  | timeoutOnClose p n pr => cases hm

/-- Witness for C7: acknowledging with a proof above the tracked height
fails and leaves the sample store untouched. -/
theorem packet_ops_atomic_witness :
    (step stBase (Msg.ackPacket pktSrcO prHigh)).state = stBase :=
  packet_ops_atomic stBase (Msg.ackPacket pktSrcO prHigh)
    Err.ProofVerificationFailed trivial (by decide)

/-- C8: `UpdateClient` is a no-op when the exact height/root pair carried
by the header is already tracked: the whole store, `ClientState` and
`ConsensusState` history included, is returned unchanged. -/
theorem update_client_idempotent (st : State) (cid : ClientId) (h : Header)
    (cl : ClientRecord) (cs : ConsensusState)
    (hcl : getA st.clients cid = some cl) (hfr : cl.frozen = false)
    (hv : h.valid = true) (hcs : getA cl.consensusStates h.height = some cs)
    (hroot : cs.root = h.consensusState.root) :
    updateClient st cid h = ⟨none, st⟩ := by
  unfold updateClient
  simp [hcl, hfr, hv, hcs, hroot]

/-- Witness for C8: re-submitting the already-tracked height-10 header to
the sample store changes nothing. -/
theorem update_client_idempotent_witness :
    updateClient stBase "client-a" ⟨⟨0, 10⟩, ⟨77, 1000⟩, true⟩ = ⟨none, stBase⟩ :=
  update_client_idempotent stBase "client-a" ⟨⟨0, 10⟩, ⟨77, 1000⟩, true⟩
    clientOk ⟨77, 1000⟩ (by decide) (by decide) (by decide) (by decide) (by decide)

/-- C9: the `ibc-core` crate is a pure re-export aggregator — every item
of the file is a module holding exactly one glob re-export, and whatever
items the underlying `ibc-core-*` crates export are exactly the items
visible through the aggregator's nine modules, for any item assignment. -/
theorem ibc_core_pure_reexport : ∀ env : String → List String,
    ibcCoreLibItems.all isPureReExport = true ∧
    exportsThrough env ibcCoreLibItems "entrypoint" = env "ibc_core_handler::entrypoint" ∧
    exportsThrough env ibcCoreLibItems "channel" = env "ibc_core_channel" ∧
    exportsThrough env ibcCoreLibItems "client" = env "ibc_core_client" ∧
    exportsThrough env ibcCoreLibItems "commitment_types" = env "ibc_core_commitment_types" ∧
    exportsThrough env ibcCoreLibItems "connection" = env "ibc_core_connection" ∧
    exportsThrough env ibcCoreLibItems "host" = env "ibc_core_host" ∧
    exportsThrough env ibcCoreLibItems "handler" = env "ibc_core_handler" ∧
    exportsThrough env ibcCoreLibItems "router" = env "ibc_core_router" ∧
    exportsThrough env ibcCoreLibItems "primitives" = env "ibc_primitives" :=
  fun env => ⟨by decide, rfl, rfl, rfl, rfl, rfl, rfl, rfl, rfl, rfl⟩

/-- C10: the crate carries the `no_std` and `forbid(unsafe_code)`
attributes and none of its items contains an `unsafe` block. -/
theorem ibc_core_no_std_forbids_raw_code :
    ibcCoreLibAttrs.contains "no_std" = true ∧
    ibcCoreLibAttrs.contains "forbid(unsafe_code)" = true ∧
    itemsRaw ibcCoreLibItems = false := by
  exact ⟨by decide, by decide, by decide⟩

/-- C5: on an ordered open channel with a verified proof and a live
timeout, `RecvPacket` succeeds exactly at the next-receive counter —
any other sequence fails with `SequenceMismatch` and leaves the store
unchanged, and a successful receive advances the counter by exactly
one. -/
theorem ordered_recv_exact_sequence (st : State) (p : Packet) (pr : MProof)
    (a : Nat) (ch : ChannelEnd) (conn : ConnectionEnd) (cs : ConsensusState)
    (hch : getA st.channels p.destChannel = some ch)
    (hop : ch.state = ChanState.Open)
    (hord : ch.ordering = ChanOrdering.Ordered)
    (hconn : getA st.connections ch.connectionId = some conn)
    (hver : verifyProofCS st conn.clientId pr = .ok cs)
    (htime : timeoutElapsedAt p st.hostHeight st.hostTimestamp = false) :
    (p.sequence ≠ nextRecvOf st p.destChannel →
      recvPacket st p pr a = ⟨some Err.SequenceMismatch, st⟩) ∧
    (p.sequence = nextRecvOf st p.destChannel →
      (recvPacket st p pr a).result = none ∧
      nextRecvOf ((recvPacket st p pr a).state) p.destChannel =
        nextRecvOf st p.destChannel + 1) := by
  constructor
  · intro hne
    unfold recvPacket
    simp [hch, hop, hconn, hver, htime, hord, hne]
  · intro heq
    unfold recvPacket
    simp only [hch, hop, hconn, hver, htime, hord]
    simp only [heq]
    constructor
    · simp
    · show nextRecvOf { st with
        nextRecvSeq := setA st.nextRecvSeq p.destChannel (nextRecvOf st p.destChannel + 1),
        acks := setA st.acks (p.destChannel, p.sequence) a } p.destChannel = _
      unfold nextRecvOf
      simp only [getA_setA, if_pos rfl]
      rfl

/-- Witness for C5: on the sample store's ordered channel, receiving
sequence 1 (the next-receive counter) succeeds and advances the counter
to 2. -/
theorem ordered_recv_exact_sequence_witness :
    (recvPacket stBase pktRecvO prOk 9).result = none ∧
    nextRecvOf ((recvPacket stBase pktRecvO prOk 9).state) pktRecvO.destChannel =
      nextRecvOf stBase pktRecvO.destChannel + 1 :=
  (ordered_recv_exact_sequence stBase pktRecvO prOk 9 chanOrdEnd connOpenEnd
    ⟨77, 1000⟩ (by decide) (by decide) (by decide) (by decide) rfl (by decide)).2
    (by decide)

/-- C6: on an unordered open channel with a verified proof and a live
timeout, a sequence is received at most once — a receipt already present
makes `RecvPacket` fail and leaves the store unchanged, a first receive
succeeds and records the receipt, and the outcome for any other sequence
is unaffected by that receipt's presence. -/
theorem unordered_recv_at_most_once (st : State) (p : Packet) (pr : MProof)
    (a : Nat) (ch : ChannelEnd) (conn : ConnectionEnd) (cs : ConsensusState)
    (hch : getA st.channels p.destChannel = some ch)
    (hop : ch.state = ChanState.Open)
    (hord : ch.ordering = ChanOrdering.Unordered)
    (hconn : getA st.connections ch.connectionId = some conn)
    (hver : verifyProofCS st conn.clientId pr = .ok cs)
    (htime : timeoutElapsedAt p st.hostHeight st.hostTimestamp = false) :
    (memA st.receipts (p.destChannel, p.sequence) = true →
      recvPacket st p pr a = ⟨some Err.DuplicateReceipt, st⟩) ∧
    (memA st.receipts (p.destChannel, p.sequence) = false →
      (recvPacket st p pr a).result = none ∧
      memA ((recvPacket st p pr a).state).receipts (p.destChannel, p.sequence) = true) ∧
    (∀ (p' : Packet) (pr' : MProof) (a' : Nat),
      p'.sequence ≠ p.sequence →
      (recvPacket { st with receipts := (p.destChannel, p.sequence) :: st.receipts }
          p' pr' a').result =
        (recvPacket st p' pr' a').result) := by
  refine ⟨?_, ?_, ?_⟩
  · intro hmem
    unfold recvPacket
    simp [hch, hop, hconn, hver, htime, hord, hmem]
  · intro hmem
    unfold recvPacket
    simp only [hch, hop, hconn, hver, htime, hord]
    simp only [hmem]
    constructor
    · simp
    · show memA (((p.destChannel, p.sequence)) :: st.receipts) (p.destChannel, p.sequence) = true
      simp [memA_cons]
  · intro p' pr' a' hds
    have hne : decide (((p.destChannel, p.sequence) : ChannelId × Sequence) =
        (p'.destChannel, p'.sequence)) = false := by
      apply decide_eq_false
      intro hh
      exact hds (congrArg Prod.snd hh).symm
    have hcongr : ∀ (cid : ClientId) (prx : MProof),
        verifyProofCS { st with receipts := (p.destChannel, p.sequence) :: st.receipts }
          cid prx = verifyProofCS st cid prx := by
      intro cid prx
      rfl
    have hcongr2 : ∀ c : ChannelId,
        nextRecvOf { st with receipts := (p.destChannel, p.sequence) :: st.receipts } c =
          nextRecvOf st c := by
      intro c
      rfl
    unfold recvPacket
    dsimp only
    simp only [memA_cons, hne, Bool.false_or, hcongr, hcongr2]
    repeat' split
    all_goals rfl

/-- Witness for C6: on the sample store's unordered channel, re-receiving
the already-receipted sequence 5 is rejected, and the result for sequence
6 is the same whether or not sequence 5's receipt is present. -/
theorem unordered_recv_at_most_once_witness :
    recvPacket stBase pktRecvU5 prOk 9 = ⟨some Err.DuplicateReceipt, stBase⟩ ∧
    (recvPacket { stBase with
        receipts := (pktRecvU5.destChannel, pktRecvU5.sequence) :: stBase.receipts }
      pktRecvU6 prOk 9).result = (recvPacket stBase pktRecvU6 prOk 9).result := by
  have h := unordered_recv_at_most_once stBase pktRecvU5 prOk 9 chanUnoEnd
    connOpenEnd ⟨77, 1000⟩ (by decide) (by decide) (by decide) (by decide) rfl (by decide)
  exact ⟨h.1 (by decide), h.2.2 pktRecvU6 prOk 9 (by decide)⟩

/-- C1: a send commitment is cleared exactly once.  A successful
`AcknowledgePacket` or `TimeoutPacket` requires the live commitment and
removes it; after either has cleared it the other can no longer succeed;
absence (for an already-used sequence) is preserved by every operation,
so the commitment can never reappear; and a repeat submission of either
clearing operation after the clearing fails with `CommitmentNotFound`,
leaving the store unchanged. -/
theorem commitment_cleared_exactly_once (st : State) (p : Packet) (n : Sequence)
    (pr pr2 : MProof) (m : Msg) (ch : ChannelEnd) (conn : ConnectionEnd)
    (cs : ConsensusState) :
    ((ackPacket st p pr).result = none →
      getA st.commitments (p.sourceChannel, p.sequence) = some (commitmentOf p) ∧
      getA ((ackPacket st p pr).state).commitments (p.sourceChannel, p.sequence) = none) ∧
    ((timeoutPacket st p n pr).result = none →
      getA st.commitments (p.sourceChannel, p.sequence) = some (commitmentOf p) ∧
      getA ((timeoutPacket st p n pr).state).commitments (p.sourceChannel, p.sequence) = none) ∧
    ((ackPacket st p pr).result = none →
      (timeoutPacket ((ackPacket st p pr).state) p n pr2).result ≠ none) ∧
    ((timeoutPacket st p n pr).result = none →
      (ackPacket ((timeoutPacket st p n pr).state) p pr2).result ≠ none) ∧
    (getA st.commitments (p.sourceChannel, p.sequence) = none →
      p.sequence < nextSendOf st p.sourceChannel →
      getA ((step st m).state).commitments (p.sourceChannel, p.sequence) = none ∧
      p.sequence < nextSendOf ((step st m).state) p.sourceChannel) ∧
    (getA st.channels p.sourceChannel = some ch → ch.state = ChanState.Open →
      getA st.connections ch.connectionId = some conn →
      verifyProofCS st conn.clientId pr = .ok cs →
      getA st.commitments (p.sourceChannel, p.sequence) = none →
      ackPacket st p pr = ⟨some Err.CommitmentNotFound, st⟩ ∧
      (timeoutElapsedAt p pr.height cs.timestamp = true →
        (decide (ch.ordering = ChanOrdering.Ordered) && decide (n > p.sequence)) = false →
        timeoutPacket st p n pr = ⟨some Err.CommitmentNotFound, st⟩)) := by
  refine ⟨?_, ?_, ?_, ?_, ?_, ?_⟩
  · intro hs
    have hr := ackPacket_run st p pr hs
    exact ⟨hr.1, by rw [hr.2]; exact getA_delA_self _ _⟩
  · intro hs
    have hr := timeoutPacket_run st p n pr hs
    exact ⟨hr.1, by rw [hr.2]; exact getA_delA_self _ _⟩
  · intro hs hts
    have hr := ackPacket_run st p pr hs
    have habs : getA ((ackPacket st p pr).state).commitments
        (p.sourceChannel, p.sequence) = none := by
      rw [hr.2]
      exact getA_delA_self _ _
    have htr := (timeoutPacket_run ((ackPacket st p pr).state) p n pr2 hts).1
    rw [habs] at htr
    cases htr
  · intro hs has
    have hr := timeoutPacket_run st p n pr hs
    have habs : getA ((timeoutPacket st p n pr).state).commitments
        (p.sourceChannel, p.sequence) = none := by
      rw [hr.2]
      exact getA_delA_self _ _
    have har := (ackPacket_run ((timeoutPacket st p n pr).state) p pr2 has).1
    rw [habs] at har
    cases har
  · intro habs hlt
    exact step_absent_preserved st m _ _ habs hlt
  · intro hch hop hconn hver habs
    refine ⟨ackPacket_notfound st p pr ch conn cs hch hop hconn hver habs, ?_⟩
    intro hel hrec
    exact timeoutPacket_notfound st p n pr ch conn cs hch hop hconn hver hel hrec habs

/-- C2: connection and channel records only move forward in their
enumerated order under every operation, a `Closed` channel stays `Closed`
forever, and a handshake step can only have succeeded from its legal
predecessor configuration — any out-of-order step fails. -/
theorem handshake_states_forward_only (st : State) (m : Msg) :
    (∀ connId, connRankOf st connId ≤ connRankOf ((step st m).state) connId) ∧
    (∀ chanId, chanRankOf st chanId ≤ chanRankOf ((step st m).state) chanId) ∧
    (∀ chanId, chanStateOf st chanId = some ChanState.Closed →
      chanStateOf ((step st m).state) chanId = some ChanState.Closed) ∧
    ((step st m).result = none → handshakeSourceOk st m) := by
  refine ⟨fun c => step_conn_mono st m c, fun c => step_chan_mono st m c,
    ?_, fun h => step_source st m h⟩
  intro c hcl
  apply chanStateOf_of_rank_four
  have h4 := chanRankOf_of_closed st c hcl
  have hmono := step_chan_mono st m c
  rw [h4] at hmono
  exact hmono

/-- C3: a client's tracked latest height is non-decreasing under every
operation and a set freeze flag is permanent; and every operation whose
validation dereferences a frozen client fails with `ClientFrozen`. -/
theorem client_height_mono_frozen_permanent (st : State) (m : Msg) :
    (∀ cid cl, getA st.clients cid = some cl →
      ∃ cl', getA ((step st m).state).clients cid = some cl' ∧
        hle cl.latestHeight cl'.latestHeight = true ∧
        (cl.frozen = true → cl'.frozen = true)) ∧
    (∀ cid, refClient st m = some cid → frozenOf st cid = true →
      (step st m).result = some Err.ClientFrozen) :=
  ⟨fun cid cl hcl => step_clients_mono st m cid cl hcl,
   fun cid href hfr => step_frozen st m cid href hfr⟩

/-! ## Concrete sanity checks

Evaluations on the sample store showing that the guarded situations of
the claims are reachable: clears succeed, repeats fail, handshake steps
advance, freezes bite. -/

/-- Acknowledging the in-flight ordered-channel packet succeeds. -/
theorem sanity_ack_succeeds : (ackPacket stBase pktSrcO prOk).result = none := by
  decide

/-- Re-acknowledging after the clearing returns `CommitmentNotFound`. -/
theorem sanity_ack_repeat_notfound :
    (ackPacket (ackPacket stBase pktSrcO prOk).state pktSrcO prOk).result =
      some Err.CommitmentNotFound := by
  decide

/-- Timing out the elapsed unordered-channel packet succeeds. -/
theorem sanity_timeout_succeeds :
    (timeoutPacket stBase pktSrcU 1 prOk).result = none := by
  decide

/-- Timing out after an acknowledgement has cleared the commitment
returns `CommitmentNotFound`: the two clearing paths never both fire. -/
theorem sanity_timeout_after_ack_notfound :
    (timeoutPacket (ackPacket stBase pktSrcU prOk).state pktSrcU 1 prOk).result =
      some Err.CommitmentNotFound := by
  decide

/-- Freezing the client and then updating it fails with `ClientFrozen`. -/
theorem sanity_frozen_update_fails :
    (updateClient (submitMisbehaviour stBase "client-a" ⟨true⟩).state
      "client-a" ⟨⟨0, 11⟩, ⟨78, 1100⟩, true⟩).result = some Err.ClientFrozen := by
  decide

/-- Acknowledging on the frozen store fails with `ClientFrozen`. -/
theorem sanity_frozen_ack_fails :
    (ackPacket stFrozen pktSrcO prOk).result = some Err.ClientFrozen := by
  decide

/-- `ConnOpenAck` advances the `Init` connection of the sample store. -/
theorem sanity_conn_ack_succeeds :
    (connOpenAck stBase "conn-i" "conn-b" 1 prOk).result = none := by
  decide

/-- `ConnOpenAck` on the already-`Open` connection is rejected. -/
theorem sanity_conn_ack_out_of_order :
    (connOpenAck stBase "conn-a" "conn-b" 1 prOk).result =
      some Err.ConnectionInvalidState := by
  decide

/-- Sending the next-sequence packet on the ordered channel succeeds. -/
theorem sanity_send_succeeds : (sendPacket stBase pktSendO).result = none := by
  decide

/-- Receiving with a proof above the tracked height 10 fails with
`ProofVerificationFailed`. -/
theorem sanity_recv_proof_too_high :
    (recvPacket stBase pktRecvO prHigh 9).result =
      some Err.ProofVerificationFailed := by
  decide

end IBC
